import Mathlib

/-!
Shallow embedding of the awards-nomination-system core
(`app/services/nomination_service.py`, `app/services/approval_service.py`,
`app/services/ranking_service.py`, and the criteria/cycle update handlers in
`app/api/v1/routes.py`), together with proofs about the frozen claims.

Database rows are modelled as Lean structures, the database as lists of rows,
timestamps as integers, SQL `Numeric` values as rationals, and Python
exceptions as an explicit error type returned through `Except`.  Unique
constraints are modelled as checks performed at the points where the code
calls `session.flush()` / `session.commit()`; a constraint violation at a
flush that the Python code does not wrap in a `try` block is the distinct
error `Err.integrityError` (an uncaught `IntegrityError`).
-/

namespace Awards

/-- User roles (`app/models/domain.py`, `UserRole`). -/
inductive UserRole where
  | EMPLOYEE
  | TEAM_LEAD
  | MANAGER
  | HR
deriving DecidableEq, Repr

/-- Cycle lifecycle states (`app/models/domain.py`, `CycleStatus`). -/
inductive CycleStatus where
  | DRAFT
  | OPEN
  | CLOSED
  | FINALIZED
deriving DecidableEq, Repr

/-- Nomination states (`app/models/domain.py`, `NominationStatus`). -/
inductive NominationStatus where
  | PENDING
  | APPROVED
  | REJECTED
deriving DecidableEq, Repr

/-- Approval actions (`app/models/domain.py`, `ApprovalAction`). -/
inductive ApprovalAction where
  | APPROVE
  | REJECT
deriving DecidableEq, Repr

/-- JSON-ish values appearing in answer payload dictionaries: strings,
lists of strings, integers.  The code treats these values opaquely
(pass-through), so this restricted value universe is faithful for
every claim about answer handling. -/
inductive AVal where
  | s (v : String)
  | list (vs : List String)
  | n (v : Int)
deriving DecidableEq, Repr

/-- An answer payload: a JSON object, modelled as an association list of
string keys to values (Python `dict`, insertion-ordered, unique keys). -/
abbrev AnswerDict := List (String × AVal)

/-- Question-type configuration stored on a criterion
(`Criteria.config` JSONB column; shape documented in
`app/schemas/base.py`, `CriteriaConfig`). -/
structure CriteriaConfig where
  qtype : String
  required : Bool
  options : List String
  imageRequired : Option Bool
deriving DecidableEq, Repr

/-- A user row (`users` table; only the columns the core services read). -/
structure User where
  id : Nat
  role : UserRole
  teamId : Option Nat
deriving DecidableEq, Repr

/-- A nomination-cycle row (`nomination_cycles` table). -/
structure Cycle where
  id : Nat
  name : String
  startAt : Int
  endAt : Int
  status : CycleStatus
  createdBy : Nat
deriving DecidableEq, Repr

/-- A criterion row (`criteria` table). -/
structure Criterion where
  id : Nat
  cycleId : Nat
  name : String
  weight : ℚ
  description : Option String
  isActive : Bool
  config : Option CriteriaConfig
deriving DecidableEq, Repr

/-- A nomination row (`nominations` table). -/
structure Nomination where
  id : Nat
  cycleId : Nat
  nomineeUserId : Nat
  teamId : Option Nat
  submittedBy : Nat
  submittedAt : Int
  status : NominationStatus
deriving DecidableEq, Repr

/-- A per-criterion answer row (`nomination_criteria_scores` table).
`score` is the nullable legacy integer column. -/
structure ScoreRow where
  id : Nat
  nominationId : Nat
  criteriaId : Nat
  score : Option Int
  answer : Option AnswerDict
  comment : Option String
deriving DecidableEq, Repr

/-- An approval row (`approvals` table). -/
structure Approval where
  id : Nat
  nominationId : Nat
  actorUserId : Nat
  action : ApprovalAction
  reason : Option String
  rating : Option ℚ
  actedAt : Int
deriving DecidableEq, Repr

/-- A per-criterion review row (`approval_criteria_reviews` table, columns
from the migration `c8f2e3d4a5b6_add_approval_criteria_reviews_table.py`;
the ORM class itself is referenced by `approval_service.py` but its
declaration is not part of the snapshot). -/
structure ReviewRow where
  id : Nat
  approvalId : Nat
  criteriaId : Nat
  rating : ℚ
  comment : Option String
deriving DecidableEq, Repr

/-- A ranking row (`rankings` table). -/
structure Ranking where
  id : Nat
  cycleId : Nat
  teamId : Option Nat
  nomineeUserId : Nat
  totalScore : ℚ
  rank : Nat
  computedAt : Int
deriving DecidableEq, Repr

/-- A nomination-history snapshot row (`nominations_history` table). -/
structure NomHist where
  sourceNominationId : Nat
  cycleId : Nat
  nomineeUserId : Nat
  teamId : Option Nat
  submittedBy : Nat
  submittedAt : Int
  status : NominationStatus
  payload : Option AnswerDict
deriving DecidableEq, Repr

/-- A ranking-history snapshot row (`rankings_history` table). -/
structure RankHist where
  sourceRankingId : Nat
  cycleId : Nat
  teamId : Option Nat
  nomineeUserId : Nat
  totalScore : ℚ
  rank : Nat
  computedAt : Int
deriving DecidableEq, Repr

/-- The database state: one list per table, an audit log (we record only the
action strings, which is all any claim needs), and a fresh-id counter
standing in for UUID generation. -/
structure St where
  users : List User
  cycles : List Cycle
  criteria : List Criterion
  nominations : List Nomination
  scores : List ScoreRow
  approvals : List Approval
  reviews : List ReviewRow
  rankings : List Ranking
  nomHistory : List NomHist
  rankHistory : List RankHist
  auditLog : List String
  nextId : Nat
deriving DecidableEq, Repr

/-- Domain and database errors.  Each constructor corresponds to one `raise`
site in the Python services/routes (the original message is given in the
comment), except `integrityError`, which models a database
`IntegrityError` escaping a flush/commit that no `try` block translates. -/
inductive Err where
  | cycleNotFound          -- ValueError "Cycle not found"
  | weightCeilingExceeded  -- ValueError "Criteria weights exceed 1.0 for cycle"
  | cycleNotOpen           -- ValueError "Cycle not open for submissions"
  | permissionDenied       -- PermissionError "Only TEAM_LEAD, MANAGER, or HR can submit nominations"
  | userNotFound           -- ValueError "User not found"
  | criteriaMismatch       -- ValueError "Criteria not active or not part of cycle"
  | integrityError         -- uncaught sqlalchemy IntegrityError (surfaces as HTTP 500)
  | duplicateNomination    -- ValueError "Duplicate nomination for this cycle/nominee/submitter"
  | nominationNotFound     -- ValueError "Nomination not found"
  | alreadyProcessed       -- ValueError "Nomination already processed"
  | actorNotFound          -- ValueError "Actor not found"
  | approverRoleDenied     -- PermissionError "Only MANAGER or HR can act on nominations"
  | selfApprovalForbidden  -- PermissionError "A manager cannot approve or reject their own nomination..."
  | criteriaNotInCycle     -- ValueError "Criteria {id} not found in cycle"
  | ratingOutOfRange       -- ValueError "Rating for criterion ... must be between 0 and {weight}"
  | cycleNotClosed         -- ValueError "Cycle must be CLOSED before finalization"
  | nullScoreTypeError     -- Python TypeError from Decimal(None) in compute_cycle_rankings
  | finalizedImmutable     -- AppError "FINALIZED cycles cannot be updated"
  | restrictedCycleFields  -- AppError "Only status and dates can be updated for ... cycles"
  | invalidDates           -- ValueError/AppError "end_at must be after start_at"
  | nonDraftWeightName     -- AppError "Cannot update weight or name of criteria in a non-DRAFT cycle"
  | weightCeilingExceeded10 -- AppError "Criteria weights exceed 10.0 for cycle"
  | criteriaNotFound       -- HTTP 404 "Criteria not found"
deriving DecidableEq, Repr

/-- Decidable equality of `Except` results, for evaluating operations on
concrete states. -/
instance {ε α : Type _} [DecidableEq ε] [DecidableEq α] :
    DecidableEq (Except ε α) := fun a b =>
  match a, b with
  | .error e1, .error e2 =>
    match decEq e1 e2 with
    | isTrue h => isTrue (congrArg Except.error h)
    | isFalse h => isFalse (fun hh => h (Except.error.inj hh))
  | .ok v1, .ok v2 =>
    match decEq v1 v2 with
    | isTrue h => isTrue (congrArg Except.ok h)
    | isFalse h => isFalse (fun hh => h (Except.ok.inj hh))
  | .error _, .ok _ => isFalse (fun hh => Except.noConfusion hh)
  | .ok _, .error _ => isFalse (fun hh => Except.noConfusion hh)

/-- Look up a cycle by primary key (`session.get(NominationCycle, id)`). -/
def findCycle (s : St) (cid : Nat) : Option Cycle :=
  s.cycles.find? (fun c => c.id == cid)

/-- Look up a user by primary key (`session.get(User, id)`). -/
def findUser (s : St) (uid : Nat) : Option User :=
  s.users.find? (fun u => u.id == uid)

/-- Look up a nomination by primary key (`session.get(Nomination, id)`). -/
def findNomination (s : St) (nid : Nat) : Option Nomination :=
  s.nominations.find? (fun n => n.id == nid)

/-- Look up a criterion by primary key. -/
def findCriterion (s : St) (cid : Nat) : Option Criterion :=
  s.criteria.find? (fun c => c.id == cid)

/-- The active criteria of a cycle
(`NominationService._get_active_criteria`). -/
def activeCriteria (s : St) (cycleId : Nat) : List Criterion :=
  s.criteria.filter (fun c => c.cycleId == cycleId && c.isActive)

/-- Sum of the weights of a cycle's active criteria
(`NominationService._criteria_weight_sum`). -/
def criteriaWeightSum (s : St) (cycleId : Nat) : ℚ :=
  ((activeCriteria s cycleId).map Criterion.weight).sum

/-- Database constraint `uq_criteria_cycle_name` plus the check constraint
`ck_criteria_weight_non_negative`, evaluated at flush time. -/
def criteriaFlushOk (s : St) : Bool :=
  decide ((s.criteria.map (fun c => (c.cycleId, c.name))).Nodup) &&
    s.criteria.all (fun c => 0 ≤ c.weight)

/-- Database constraints `uq_nomination_unique_nominee` and
`uq_nomination_unique_submitter`, evaluated at flush time. -/
def nominationFlushOk (s : St) : Bool :=
  decide ((s.nominations.map (fun n => (n.cycleId, n.nomineeUserId))).Nodup) &&
    decide ((s.nominations.map (fun n => (n.cycleId, n.nomineeUserId, n.submittedBy))).Nodup)

/-- Database constraint `uq_score_nomination_criteria`, evaluated at flush
time. -/
def scoreFlushOk (s : St) : Bool :=
  decide ((s.scores.map (fun r => (r.nominationId, r.criteriaId))).Nodup)

/-- Database constraint `uq_approval_actor_once`, evaluated at flush time. -/
def approvalFlushOk (s : St) : Bool :=
  decide ((s.approvals.map (fun a => (a.nominationId, a.actorUserId))).Nodup)

/-- Database constraint `uq_approval_criteria_review`, evaluated at flush
time. -/
def reviewFlushOk (s : St) : Bool :=
  decide ((s.reviews.map (fun r => (r.approvalId, r.criteriaId))).Nodup)

/-- Database constraint: cycle names are unique (`nomination_cycles.name`). -/
def cycleFlushOk (s : St) : Bool :=
  decide ((s.cycles.map Cycle.name).Nodup)

/-- Input item for `add_criteria_to_cycle` (`CriteriaCreate` schema; the
`item.get("is_active", True)` default is already applied). -/
structure CritIn where
  name : String
  weight : ℚ
  description : Option String
  isActive : Bool
  config : Option CriteriaConfig
deriving DecidableEq, Repr

/-- The row-creation loop of `add_criteria_to_cycle` (before the flush):
one new `Criteria` row per input item, with fresh ids. -/
def addCriteriaRows (s : St) (cycleId : Nat) (items : List CritIn) :
    St × List Criterion :=
  let newCrits := items.enum.map (fun p =>
    ({ id := s.nextId + p.1, cycleId := cycleId, name := p.2.name,
       weight := p.2.weight, description := p.2.description,
       isActive := p.2.isActive, config := p.2.config } : Criterion))
  ({ s with criteria := s.criteria ++ newCrits, nextId := s.nextId + items.length },
   newCrits)

/-- NominationService.add_criteria_to_cycle: create the rows, flush, then
recompute the sum of active weights and fail if it exceeds
`Decimal("1.0000")` (the ceiling in this code path is 1.0). -/
def addCriteriaToCycle (s : St) (cycleId : Nat) (items : List CritIn) :
    Except Err (St × List Criterion) :=
  match findCycle s cycleId with
  | none => .error .cycleNotFound
  | some cycle =>
    let res := addCriteriaRows s cycle.id items
    if ¬ criteriaFlushOk res.1 then .error .integrityError
    else if criteriaWeightSum res.1 cycle.id > 1 then .error .weightCeilingExceeded
    else .ok ({ res.1 with auditLog := res.1.auditLog ++ ["criteria.add"] }, res.2)

/-- Patch for the `update_criteria` route (`CriteriaUpdate`,
`exclude_unset=True`): outer `Option` = field provided or not. -/
structure CritPatch where
  name : Option String
  weight : Option ℚ
  description : Option (Option String)
  isActive : Option Bool
  config : Option (Option CriteriaConfig)
deriving DecidableEq, Repr

/-- Field application in `update_criteria` (one `if "field" in update_data`
per column). -/
def applyCritPatch (c : Criterion) (p : CritPatch) : Criterion :=
  { c with
    name := p.name.getD c.name
    weight := p.weight.getD c.weight
    description := p.description.getD c.description
    isActive := p.isActive.getD c.isActive
    config := p.config.getD c.config }

/-- Replace the criterion row with id `c.id` by `c`. -/
def replaceCriterion (s : St) (c : Criterion) : St :=
  { s with criteria := s.criteria.map (fun x => if x.id == c.id then c else x) }

/-- The sum checked by `update_criteria`'s ceiling re-validation.  The
session runs with `autoflush=False` (`db/session.py` line 10), so when
`_criteria_weight_sum` issues its SELECT the patched row has not been
flushed: the SQL `is_active` / `cycle_id` filter evaluates against the
pre-patch database rows, while each returned row is resolved to its
identity-map object, whose pending attribute changes are kept.  The sum is
therefore over the pre-patch active set of the cycle, reading the patched
weight for the patched criterion when (and only when) its pre-patch row
was active. -/
def staleActiveWeightSum (s : St) (cycleId : Nat) (crit1 : Criterion) : ℚ :=
  ((activeCriteria s cycleId).map (fun c =>
    if c.id == crit1.id then crit1.weight else c.weight)).sum

/-- The `update_criteria` route handler (`app/api/v1/routes.py`): non-DRAFT
cycles reject `weight`/`name` changes; after applying the patch in memory,
the weight sum is re-validated against 10.0 — but only when `weight` was
in the patch, and against the stale (pre-patch) active set, because the
patch has not been flushed when the SELECT runs (see
`staleActiveWeightSum`). -/
def updateCriteria (s : St) (criteriaId : Nat) (p : CritPatch) :
    Except Err (St × Criterion) :=
  match findCriterion s criteriaId with
  | none => .error .criteriaNotFound
  | some crit =>
    match findCycle s crit.cycleId with
    | none => .error .cycleNotFound
    | some cycle =>
      if cycle.status ≠ .DRAFT ∧ (p.weight.isSome ∨ p.name.isSome) then
        .error .nonDraftWeightName
      else
        let crit1 := applyCritPatch crit p
        let s1 := replaceCriterion s crit1
        if p.weight.isSome ∧ staleActiveWeightSum s crit.cycleId crit1 > 10 then
          .error .weightCeilingExceeded10
        else if ¬ criteriaFlushOk s1 then .error .integrityError
        else .ok (s1, crit1)

/-- Patch for the `update_cycle` route (`CycleUpdate`, `exclude_unset=True`).
A provided `status` is modelled already parsed to the enum (the route
rejects unparseable strings before mutating anything). -/
structure CyclePatch where
  name : Option String
  startAt : Option Int
  endAt : Option Int
  status : Option CycleStatus
deriving DecidableEq, Repr

/-- Replace the cycle row with id `c.id` by `c`. -/
def replaceCycle (s : St) (c : Cycle) : St :=
  { s with cycles := s.cycles.map (fun x => if x.id == c.id then c else x) }

/-- The `update_cycle` route handler (`app/api/v1/routes.py` lines 99-160):
FINALIZED cycles are immutable; non-DRAFT cycles accept only
status/date fields; a provided status is assigned directly, with no
transition-order validation. -/
def updateCycle (s : St) (cycleId : Nat) (p : CyclePatch) :
    Except Err (St × Cycle) :=
  match findCycle s cycleId with
  | none => .error .cycleNotFound
  | some cycle =>
    if cycle.status = .FINALIZED then .error .finalizedImmutable
    else if cycle.status ≠ .DRAFT ∧ p.name.isSome then .error .restrictedCycleFields
    else
      let c1 : Cycle := { cycle with
        status := p.status.getD cycle.status
        name := p.name.getD cycle.name
        startAt := p.startAt.getD cycle.startAt
        endAt := p.endAt.getD cycle.endAt }
      if c1.endAt ≤ c1.startAt then .error .invalidDates
      else
        let s1 := replaceCycle s c1
        if ¬ cycleFlushOk s1 then .error .integrityError
        else .ok (s1, c1)

/-- NominationService.create_cycle: validates the dates and inserts a row;
the `status` column takes its server default DRAFT. -/
def createCycle (s : St) (name : String) (startAt endAt : Int) (createdBy : Nat) :
    Except Err (St × Cycle) :=
  if endAt ≤ startAt then .error .invalidDates
  else
    let c : Cycle := ⟨s.nextId, name, startAt, endAt, .DRAFT, createdBy⟩
    let s1 := { s with cycles := s.cycles ++ [c], nextId := s.nextId + 1 }
    if ¬ cycleFlushOk s1 then .error .integrityError
    else .ok ({ s1 with auditLog := s1.auditLog ++ ["cycle.create"] }, c)

/-- One entry of the `scores` list passed to `submit_nomination`
(`NominationScoreInput`): `score` is the nullable legacy integer,
`answer` the optional payload dict (`none` models both an absent key and a
falsy value such as `None`). -/
structure ScoreIn where
  criteriaId : Nat
  score : Option Int
  comment : Option String
  answer : Option AnswerDict
deriving DecidableEq, Repr

/-- The four answer keys copied by `submit_nomination`, in the order the code
tests them. -/
def allowedAnswerKeys : List String := ["text", "selected", "selected_list", "image_url"]

/-- Dictionary lookup (`answer_dict[k]` guarded by `k in answer_dict`). -/
def lookupKey (d : AnswerDict) (k : String) : Option AVal :=
  (d.find? (fun kv => kv.1 == k)).map Prod.snd

/-- The key-filtering block of `submit_nomination` (lines 104-113): build a
fresh dict copying, in order, each of the four known keys present in the
submitted payload.  Every other key is dropped. -/
def filterAnswer (d : AnswerDict) : AnswerDict :=
  allowedAnswerKeys.foldl (fun acc k =>
    match lookupKey d k with
    | some v => acc ++ [(k, v)]
    | none => acc) []

/-- The `if "answer" in score and score["answer"]:` guard: a missing or
falsy (empty) payload leaves `answer_data = None`; a nonempty dict is
filtered. -/
def answerData (a : Option AnswerDict) : Option AnswerDict :=
  match a with
  | none => none
  | some d => if d.isEmpty then none else some (filterAnswer d)

/-- The score-row construction loop of `submit_nomination`: each entry's
criterion must be in the cycle's active set, else
`ValueError("Criteria not active or not part of cycle")`. -/
def buildScoreRows (activeIds : List Nat) (nominationId : Nat) :
    List ScoreIn → Nat → Except Err (List ScoreRow)
  | [], _ => .ok []
  | sc :: rest, nid =>
    if activeIds.contains sc.criteriaId then
      match buildScoreRows activeIds nominationId rest (nid + 1) with
      | .error e => .error e
      | .ok rows =>
        .ok (⟨nid, nominationId, sc.criteriaId, sc.score, answerData sc.answer,
              sc.comment⟩ :: rows)
    else .error .criteriaMismatch

/-- Roles allowed to submit a nomination. -/
def submitterRoleOk (r : UserRole) : Bool :=
  r == .TEAM_LEAD || r == .MANAGER || r == .HR

/-- NominationService.submit_nomination.  The nomination row is flushed
(line 85) before the `try` block, so a duplicate `(cycle, nominee)` raises
an uncaught `IntegrityError` there; only a violation at the second flush
(line 131) is translated to the "Duplicate nomination" `ValueError`. -/
def submitNomination (s : St) (cycleId nomineeUserId submittedBy : Nat)
    (scores : List ScoreIn) (now : Int) : Except Err (St × Nomination) :=
  match findCycle s cycleId with
  | none => .error .cycleNotFound
  | some cycle =>
    if ¬ (cycle.startAt ≤ now ∧ now ≤ cycle.endAt) ∨ cycle.status ≠ .OPEN then
      .error .cycleNotOpen
    else
      match findUser s submittedBy with
      | none => .error .userNotFound
      | some submitter =>
        if ¬ submitterRoleOk submitter.role then .error .permissionDenied
        else
          match findUser s nomineeUserId with
          | none => .error .userNotFound
          | some nominee =>
            let nomination : Nomination :=
              ⟨s.nextId, cycle.id, nominee.id, nominee.teamId, submitter.id, now, .PENDING⟩
            let s1 := { s with nominations := s.nominations ++ [nomination],
                               nextId := s.nextId + 1 }
            if ¬ nominationFlushOk s1 then .error .integrityError
            else
              let activeIds := (activeCriteria s1 cycle.id).map Criterion.id
              match buildScoreRows activeIds nomination.id scores s1.nextId with
              | .error e => .error e
              | .ok rows =>
                let s2 := { s1 with scores := s1.scores ++ rows,
                                    nextId := s1.nextId + rows.length }
                if ¬ scoreFlushOk s2 then .error .duplicateNomination
                else
                  .ok ({ s2 with auditLog := s2.auditLog ++ ["nomination.submit"] },
                       nomination)

/-- One entry of the `criteria_reviews` list passed to approve/reject. -/
structure ReviewIn where
  criteriaId : Nat
  rating : ℚ
  comment : Option String
deriving DecidableEq, Repr

/-- Roles allowed to act on a nomination. -/
def approverRoleOk (r : UserRole) : Bool :=
  r == .MANAGER || r == .HR

/-- All criteria of a cycle, active or not (the `select(Criteria)` query in
`ApprovalService._act`). -/
def cycleCriteria (s : St) (cycleId : Nat) : List Criterion :=
  s.criteria.filter (fun c => c.cycleId == cycleId)

/-- The review loop of `_act`: resolve each review's criterion in the
nomination's cycle, range-check `0 ≤ rating ≤ weight`, and accumulate
`(Σ rating, Σ weight)`. -/
def accumulateReviews (crits : List Criterion) :
    List ReviewIn → ℚ → ℚ → Except Err (ℚ × ℚ)
  | [], sr, sw => .ok (sr, sw)
  | rv :: rest, sr, sw =>
    match crits.find? (fun c => c.id == rv.criteriaId) with
    | none => .error .criteriaNotInCycle
    | some crit =>
      if rv.rating < 0 ∨ rv.rating > crit.weight then .error .ratingOutOfRange
      else accumulateReviews crits rest (sr + rv.rating) (sw + crit.weight)

/-- Python `a or b` on nullable numbers: `None` and `0` are falsy. -/
def pyOr (a b : Option ℚ) : Option ℚ :=
  match a with
  | some v => if v = 0 then b else some v
  | none => b

/-- The conflict-of-interest check of `_act` (lines 60-65): the submitter is
loaded, and the action is blocked when actor and submitter are the same
MANAGER. -/
def selfConflict (s : St) (nomination : Nomination) (actor : User) : Bool :=
  match findUser s nomination.submittedBy with
  | some u =>
    actor.role == UserRole.MANAGER && u.role == UserRole.MANAGER &&
      actor.id == u.id
  | none => false

/-- The derived-rating computation of `_act` (lines 67-102): `None` without
reviews; otherwise the accumulated sums scaled to 0-10
(`(Σrating / Σweight) * 10`, or 0 when the total weight is 0). -/
def calcRatingRes (s : St) (nomination : Nomination) (reviews : List ReviewIn) :
    Except Err (Option ℚ) :=
  if reviews.isEmpty then Except.ok none
  else (accumulateReviews (cycleCriteria s nomination.cycleId) reviews 0 0).map
    (fun p => some (if p.2 > 0 then p.1 / p.2 * 10 else 0))

/-- The write phase of `_act` (lines 104-143): resolve the stored rating as
`rating or calculated_rating`, insert the approval row, one review row per
entry, set the nomination status, and record the audit entry. -/
def actFinish (s : St) (nomination : Nomination) (actor : User)
    (action : ApprovalAction) (reason : Option String)
    (rating calculatedRating : Option ℚ) (reviews : List ReviewIn) (now : Int) :
    Except Err (St × Approval) :=
  let rating1 := if rating.isNone then calculatedRating else rating
  let approval : Approval :=
    ⟨s.nextId, nomination.id, actor.id, action, reason,
     pyOr rating1 calculatedRating, now⟩
  let s1 := { s with approvals := s.approvals ++ [approval],
                     nextId := s.nextId + 1 }
  if ¬ approvalFlushOk s1 then .error .integrityError
  else
    let reviewRows := reviews.enum.map (fun (p : Nat × ReviewIn) =>
      (⟨s1.nextId + p.1, approval.id, p.2.criteriaId, p.2.rating,
        p.2.comment⟩ : ReviewRow))
    let s2 := { s1 with reviews := s1.reviews ++ reviewRows,
                        nextId := s1.nextId + reviewRows.length }
    let newStatus := if action == ApprovalAction.APPROVE then
        NominationStatus.APPROVED else NominationStatus.REJECTED
    let s3 := { s2 with nominations :=
      s2.nominations.map (fun (n : Nomination) =>
        if n.id == nomination.id then { n with status := newStatus } else n) }
    if ¬ reviewFlushOk s3 then .error .integrityError
    else
      .ok ({ s3 with auditLog := s3.auditLog ++
        ["nomination." ++
          (if action == ApprovalAction.APPROVE then "approve" else "reject")] },
       approval)

/-- ApprovalService._act. -/
def act (s : St) (nominationId actorUserId : Nat) (action : ApprovalAction)
    (reason : Option String) (rating : Option ℚ)
    (criteriaReviews : Option (List ReviewIn)) (now : Int) :
    Except Err (St × Approval) :=
  match findNomination s nominationId with
  | none => .error .nominationNotFound
  | some nomination =>
    if nomination.status ≠ .PENDING then .error .alreadyProcessed
    else
      match findUser s actorUserId with
      | none => .error .actorNotFound
      | some actor =>
        if ¬ approverRoleOk actor.role then .error .approverRoleDenied
        else
          if selfConflict s nomination actor then .error .selfApprovalForbidden
          else
            match calcRatingRes s nomination (criteriaReviews.getD []) with
            | .error e => .error e
            | .ok calculatedRating =>
              actFinish s nomination actor action reason rating calculatedRating
                (criteriaReviews.getD []) now

/-- ApprovalService.approve. -/
def approve (s : St) (nominationId actorUserId : Nat) (reason : Option String)
    (rating : Option ℚ) (criteriaReviews : Option (List ReviewIn)) (now : Int) :
    Except Err (St × Approval) :=
  act s nominationId actorUserId .APPROVE reason rating criteriaReviews now

/-- ApprovalService.reject. -/
def reject (s : St) (nominationId actorUserId : Nat) (reason : Option String)
    (rating : Option ℚ) (criteriaReviews : Option (List ReviewIn)) (now : Int) :
    Except Err (St × Approval) :=
  act s nominationId actorUserId .REJECT reason rating criteriaReviews now

/-- The `(Nomination, NominationCriteriaScore, Criteria)` join of
`compute_cycle_rankings`, restricted to this cycle's APPROVED nominations.
The SQL row order is unspecified; score-row order is used (totals and ranks
do not depend on it). -/
def joinRows (s : St) (cycleId : Nat) : List (Nomination × ScoreRow × Criterion) :=
  s.scores.filterMap (fun r =>
    match findNomination s r.nominationId, findCriterion s r.criteriaId with
    | some nom, some crit =>
      if nom.cycleId == cycleId && nom.status == NominationStatus.APPROVED then
        some (nom, r, crit)
      else none
    | _, _ => none)

/-- Python-dict update `d[k] = d.get(k, 0) + v`: in-place for an existing
key, appended at the end for a new one. -/
def upsertAdd (m : List (Nat × ℚ)) (k : Nat) (v : ℚ) : List (Nat × ℚ) :=
  match m with
  | [] => [(k, v)]
  | (k1, v1) :: rest =>
    if k1 == k then (k1, v1 + v) :: rest else (k1, v1) :: upsertAdd rest k v

/-- The accumulation loop of `compute_cycle_rankings` (lines 31-35):
`weighted = Decimal(score_row.score) * Decimal(crit.weight)`.  A `None`
legacy score makes `Decimal(None)` raise `TypeError`. -/
def accumulateTotals (m : List (Nat × ℚ)) :
    List (Nomination × ScoreRow × Criterion) → Except Err (List (Nat × ℚ))
  | [] => .ok m
  | t :: rest =>
    match t.2.1.score with
    | none => .error .nullScoreTypeError
    | some n => accumulateTotals (upsertAdd m t.1.id ((n : ℚ) * t.2.2.weight)) rest

/-- Stable insertion keeping strictly greater totals in front. -/
def insertDesc (x : Nat × ℚ) : List (Nat × ℚ) → List (Nat × ℚ)
  | [] => [x]
  | y :: ys => if x.2 > y.2 then x :: y :: ys else y :: insertDesc x ys

/-- Stable sort by total descending
(`sorted(items, key=lambda kv: kv[1], reverse=True)`). -/
def sortTotalsDesc (l : List (Nat × ℚ)) : List (Nat × ℚ) :=
  l.foldl (fun acc x => insertDesc x acc) []

/-- The rank-assignment loop of `compute_cycle_rankings` (lines 45-56):
`enumerate(..., start=1)`; a strictly smaller total (or the first row)
takes its enumeration index as rank, anything else repeats the previous
rank. -/
def assignRanksAux (idx currentRank : Nat) (lastScore : Option ℚ) :
    List (Nat × ℚ) → List (Nat × ℚ × Nat)
  | [] => []
  | x :: rest =>
    let newEpoch : Bool := match lastScore with
      | none => true
      | some ls => decide (x.2 < ls)
    let r := if newEpoch then idx else currentRank
    let ls1 := if newEpoch then some x.2 else lastScore
    (x.1, x.2, r) :: assignRanksAux (idx + 1) r ls1 rest

/-- Rank assignment entry point (`current_rank = 0`, `last_score = None`). -/
def assignRanks (items : List (Nat × ℚ)) : List (Nat × ℚ × Nat) :=
  assignRanksAux 1 0 none items

/-- RankingService.compute_cycle_rankings: accumulate weighted totals,
delete the cycle's rankings, sort, assign ranks, insert one row per
nomination. -/
def computeCycleRankings (s : St) (cycleId : Nat) (now : Int) :
    Except Err (St × List Ranking) :=
  match findCycle s cycleId with
  | none => .error .cycleNotFound
  | some _ =>
    match accumulateTotals [] (joinRows s cycleId) with
    | .error e => .error e
    | .ok totals =>
      let s1 := { s with rankings := s.rankings.filter (fun r => r.cycleId ≠ cycleId) }
      let ranked := assignRanks (sortTotalsDesc totals)
      let newRankings := ranked.enum.map (fun p =>
        ({ id := s1.nextId + p.1,
           cycleId := cycleId,
           teamId := (findNomination s p.2.1).bind Nomination.teamId,
           nomineeUserId := ((findNomination s p.2.1).map Nomination.nomineeUserId).getD 0,
           totalScore := p.2.2.1,
           rank := p.2.2.2,
           computedAt := now } : Ranking))
      let s2 := { s1 with rankings := s1.rankings ++ newRankings,
                          nextId := s1.nextId + newRankings.length,
                          auditLog := s1.auditLog ++ ["ranking.compute"] }
      .ok (s2, newRankings)

/-- RankingService.finalize_cycle: require CLOSED, recompute rankings,
snapshot every nomination of the cycle (any status) and every computed
ranking into the history tables, then set the cycle FINALIZED. -/
def finalizeCycle (s : St) (cycleId : Nat) (now : Int) : Except Err St :=
  match findCycle s cycleId with
  | none => .error .cycleNotFound
  | some cycle =>
    if cycle.status ≠ .CLOSED then .error .cycleNotClosed
    else
      match computeCycleRankings s cycleId now with
      | .error e => .error e
      | .ok res =>
        let s1 := res.1
        let noms := s1.nominations.filter (fun n => n.cycleId == cycleId)
        let nomHists := noms.map (fun n =>
          ({ sourceNominationId := n.id, cycleId := n.cycleId,
             nomineeUserId := n.nomineeUserId, teamId := n.teamId,
             submittedBy := n.submittedBy, submittedAt := n.submittedAt,
             status := n.status, payload := none } : NomHist))
        let rankHists := res.2.map (fun r =>
          ({ sourceRankingId := r.id, cycleId := r.cycleId, teamId := r.teamId,
             nomineeUserId := r.nomineeUserId, totalScore := r.totalScore,
             rank := r.rank, computedAt := r.computedAt } : RankHist))
        .ok { s1 with
          nomHistory := s1.nomHistory ++ nomHists,
          rankHistory := s1.rankHistory ++ rankHists,
          cycles := s1.cycles.map (fun c =>
            if c.id == cycleId then { c with status := .FINALIZED } else c),
          auditLog := s1.auditLog ++ ["cycle.finalize"] }

/-- The per-score serialization of the `get_nomination` read path
(routes.py lines 464-477): the stored `answer` JSON of the score row for
`(nomination, criterion)` is returned verbatim. -/
def readNominationAnswer (s : St) (nominationId criteriaId : Nat) :
    Option (Option AnswerDict) :=
  (s.scores.find? (fun r =>
    r.nominationId == nominationId && r.criteriaId == criteriaId)).map ScoreRow.answer

/-! Concrete database states used by the counterexamples and witnesses. -/

/-- An empty database. -/
def emptySt : St :=
  ⟨[], [], [], [], [], [], [], [], [], [], [], 0⟩

/-- A cycle with one APPROVED nomination whose single score row has a null
legacy `score` (an answer-typed submission), reachable by submitting with
an `answer` payload and no `score` key. -/
def stNullScore : St :=
  { emptySt with
    users := [⟨1, .HR, none⟩, ⟨3, .TEAM_LEAD, some 100⟩, ⟨4, .EMPLOYEE, some 100⟩],
    cycles := [⟨10, "Q1", 0, 100, .OPEN, 1⟩],
    criteria := [⟨11, 10, "Impact", 3/10, none, true, none⟩],
    nominations := [⟨12, 10, 4, some 100, 3, 5, .APPROVED⟩],
    scores := [⟨13, 12, 11, none, some [("text", .s "great")], none⟩],
    nextId := 20 }

/-- The same situation with the cycle CLOSED, ready for finalization. -/
def stClosedNullScore : St :=
  { stNullScore with cycles := [⟨10, "Q1", 0, 100, .CLOSED, 1⟩] }

/-- A DRAFT cycle with no criteria yet. -/
def stDraftEmpty : St :=
  { emptySt with
    users := [⟨1, .HR, none⟩],
    cycles := [⟨10, "Q1", 0, 100, .DRAFT, 1⟩],
    nextId := 20 }

/-- A CLOSED cycle with one APPROVED nomination carrying a numeric legacy
score and one REJECTED nomination, ready for a successful finalization. -/
def stClosedOk : St :=
  { emptySt with
    users := [⟨1, .HR, none⟩, ⟨3, .TEAM_LEAD, some 100⟩,
              ⟨4, .EMPLOYEE, some 100⟩, ⟨5, .EMPLOYEE, some 100⟩],
    cycles := [⟨10, "Q1", 0, 100, .CLOSED, 1⟩],
    criteria := [⟨11, 10, "Impact", 1/2, none, true, none⟩],
    nominations := [⟨12, 10, 4, some 100, 3, 5, .APPROVED⟩,
                    ⟨14, 10, 5, some 100, 3, 6, .REJECTED⟩],
    scores := [⟨13, 12, 11, some 8, none, none⟩],
    nextId := 20 }

/-- A cycle with four APPROVED nominations whose weighted totals are
90, 90, 80 and 70 (one criterion of weight 1, legacy scores 90/90/80/70). -/
def stFourTotals : St :=
  { emptySt with
    users := [⟨1, .HR, none⟩],
    cycles := [⟨10, "Q1", 0, 100, .CLOSED, 1⟩],
    criteria := [⟨11, 10, "Overall", 1, none, true, none⟩],
    nominations := [⟨21, 10, 31, none, 3, 5, .APPROVED⟩,
                    ⟨22, 10, 32, none, 3, 5, .APPROVED⟩,
                    ⟨23, 10, 33, none, 3, 5, .APPROVED⟩,
                    ⟨24, 10, 34, none, 3, 5, .APPROVED⟩],
    scores := [⟨41, 21, 11, some 90, none, none⟩,
               ⟨42, 22, 11, some 90, none, none⟩,
               ⟨43, 23, 11, some 80, none, none⟩,
               ⟨44, 24, 11, some 70, none, none⟩],
    nextId := 50 }

/-- A PENDING nomination in a cycle with one criterion of weight 2, and an
HR actor, for exercising the review-derived rating. -/
def stReview : St :=
  { emptySt with
    users := [⟨1, .HR, none⟩, ⟨3, .TEAM_LEAD, some 100⟩, ⟨4, .EMPLOYEE, some 100⟩],
    cycles := [⟨10, "Q1", 0, 100, .OPEN, 1⟩],
    criteria := [⟨11, 10, "Impact", 2, none, true, none⟩],
    nominations := [⟨12, 10, 4, some 100, 3, 5, .PENDING⟩],
    nextId := 20 }

/-- A PENDING nomination submitted by a MANAGER, with that same manager and
an HR user available as actors. -/
def stSelfSubmit : St :=
  { emptySt with
    users := [⟨1, .HR, none⟩, ⟨2, .MANAGER, some 100⟩, ⟨4, .EMPLOYEE, some 100⟩],
    cycles := [⟨10, "Q1", 0, 100, .OPEN, 1⟩],
    nominations := [⟨12, 10, 4, some 100, 2, 5, .PENDING⟩],
    nextId := 20 }

/-- An OPEN cycle that already holds a nomination for nominee 4, plus a
second eligible submitter (a manager) for the duplicate attempt. -/
def stExistingNomination : St :=
  { emptySt with
    users := [⟨1, .HR, none⟩, ⟨2, .MANAGER, some 100⟩,
              ⟨3, .TEAM_LEAD, some 100⟩, ⟨4, .EMPLOYEE, some 100⟩],
    cycles := [⟨10, "Q1", 0, 100, .OPEN, 1⟩],
    nominations := [⟨12, 10, 4, some 100, 3, 5, .PENDING⟩],
    nextId := 20 }

/-- A DRAFT cycle with an active criterion of weight 0.5 and an inactive
criterion of weight 20 (the inactive one was addable because
`_criteria_weight_sum` only counts active criteria). -/
def stInactiveHeavy : St :=
  { emptySt with
    users := [⟨1, .HR, none⟩],
    cycles := [⟨10, "Q1", 0, 100, .DRAFT, 1⟩],
    criteria := [⟨11, 10, "A", 1/2, none, true, none⟩,
                 ⟨12, 10, "B", 20, none, false, none⟩],
    nextId := 20 }

/-- A DRAFT cycle with an active criterion of weight 8 and an inactive
criterion of weight 2, for the stale ceiling check: patching the inactive
one with `{weight: 5, is_active: true}` is validated against the pre-patch
active set (just the weight-8 row). -/
def stStaleCheck : St :=
  { emptySt with
    users := [⟨1, .HR, none⟩],
    cycles := [⟨10, "Q1", 0, 100, .DRAFT, 1⟩],
    criteria := [⟨11, 10, "A", 8, none, true, none⟩,
                 ⟨12, 10, "B", 2, none, false, none⟩],
    nextId := 20 }

/-- A lone DRAFT cycle. -/
def stDraftCycle : St :=
  { emptySt with
    users := [⟨1, .HR, none⟩],
    cycles := [⟨10, "Q1", 0, 100, .DRAFT, 1⟩],
    nextId := 20 }

/-- A lone OPEN cycle. -/
def stOpenCycle : St :=
  { stDraftCycle with cycles := [⟨10, "Q1", 0, 100, .OPEN, 1⟩] }

/-- An OPEN cycle with one active criterion whose question-type
configuration is a parameter, and an eligible submitter. -/
def stAnswerCycle (cfg : Option CriteriaConfig) : St :=
  { emptySt with
    users := [⟨1, .HR, none⟩, ⟨3, .TEAM_LEAD, some 100⟩, ⟨4, .EMPLOYEE, some 100⟩],
    cycles := [⟨10, "Q1", 0, 100, .OPEN, 1⟩],
    criteria := [⟨11, 10, "Impact", 1/2, none, true, cfg⟩],
    nextId := 20 }

/-! Helper lemmas about the primary-key lookups. -/

lemma findCycle_id {s : St} {cid : Nat} {c : Cycle}
    (h : findCycle s cid = some c) : c.id = cid := by
  unfold findCycle at h
  simpa using List.find?_some h

lemma findUser_id {s : St} {uid : Nat} {u : User}
    (h : findUser s uid = some u) : u.id = uid := by
  unfold findUser at h
  simpa using List.find?_some h

lemma findNomination_id {s : St} {nid : Nat} {n : Nomination}
    (h : findNomination s nid = some n) : n.id = nid := by
  unfold findNomination at h
  simpa using List.find?_some h

lemma findCriterion_id {s : St} {cid : Nat} {c : Criterion}
    (h : findCriterion s cid = some c) : c.id = cid := by
  unfold findCriterion at h
  simpa using List.find?_some h

/-- The weight sum only reads the criteria table. -/
lemma criteriaWeightSum_congr {s t : St} (h : s.criteria = t.criteria)
    (cid : Nat) : criteriaWeightSum s cid = criteriaWeightSum t cid := by
  unfold criteriaWeightSum activeCriteria
  rw [h]

/-! Claim C2. -/

/-- C2 counterexample: adding a single criterion of weight 5.0 to a DRAFT
cycle with no other criteria does not succeed — `add_criteria_to_cycle`
checks the active-weight sum against `Decimal("1.0000")`, so the call
fails with the weight-ceiling error rather than succeeding under a 10.0
ceiling. -/
theorem addCriteria_weight5_fails :
    addCriteriaToCycle stDraftEmpty 10 [⟨"Overall", 5, none, true, none⟩]
      = .error .weightCeilingExceeded := by
  with_unfolding_all decide

/-- C2 (amended): for every cycle, `add_criteria_to_cycle` succeeds exactly
when the resulting sum of active-criteria weights does not exceed the
ceiling of 1.0 used in this code path (not 10.0); in particular a single
criterion of weight 5.0 on an otherwise empty cycle is rejected with the
weight-ceiling error. -/
theorem addCriteria_ok_iff_weight_sum_le_one (s : St) (cycleId : Nat)
    (items : List CritIn) (cyc : Cycle)
    (h1 : findCycle s cycleId = some cyc)
    (h2 : criteriaFlushOk (addCriteriaRows s cyc.id items).1 = true) :
    (∃ pr, addCriteriaToCycle s cycleId items = .ok pr) ↔
      criteriaWeightSum (addCriteriaRows s cyc.id items).1 cyc.id ≤ 1 := by
  by_cases hsum : criteriaWeightSum (addCriteriaRows s cyc.id items).1 cyc.id ≤ 1
  · simp [addCriteriaToCycle, h1, h2, not_lt.mpr hsum, hsum]
  · simp [addCriteriaToCycle, h1, h2, not_le.mp hsum, hsum]

/-- C2 witness: adding one criterion of weight 0.5 to an empty DRAFT cycle
keeps the active-weight sum at 0.5 ≤ 1.0, so the call succeeds. -/
theorem addCriteria_ok_iff_weight_sum_le_one_witness :
    ∃ pr, addCriteriaToCycle stDraftEmpty 10
      [⟨"Overall", 1/2, none, true, none⟩] = .ok pr :=
  (addCriteria_ok_iff_weight_sum_le_one stDraftEmpty 10
      [⟨"Overall", 1/2, none, true, none⟩] ⟨10, "Q1", 0, 100, .DRAFT, 1⟩
      (by with_unfolding_all decide) (by with_unfolding_all decide)).mpr
    (by with_unfolding_all decide)

/-! Claim C8. -/

/-- C8 counterexample, two scenarios.  First: reactivating an inactive
criterion of weight 20 in a cycle whose active criteria weigh 0.5 succeeds
(an `is_active`-only patch skips the ceiling re-validation entirely),
leaving the active-weight sum at 20.5.  Second: even a patch that does
contain `weight` can break the ceiling — with an active weight-8 criterion
and an inactive weight-2 one, patching the inactive one with
`{weight: 5, is_active: true}` passes the check (which, with autoflush
disabled, sums only the pre-patch active set: 8 ≤ 10) and leaves the
active sum at 13 > 10. -/
theorem updateCriteria_reactivation_breaks_ceiling :
    (((updateCriteria stInactiveHeavy 12 ⟨none, none, none, some true, none⟩).map
      (fun p => criteriaWeightSum p.1 10)) = .ok (41/2) ∧ (10 : ℚ) < 41/2) ∧
    (((updateCriteria stStaleCheck 12 ⟨none, some 5, none, some true, none⟩).map
      (fun p => criteriaWeightSum p.1 10)) = .ok 13 ∧ (10 : ℚ) < 13) := by
  refine ⟨⟨?_, ?_⟩, ?_, ?_⟩
  · with_unfolding_all decide
  · with_unfolding_all decide
  · with_unfolding_all decide
  · with_unfolding_all decide

/-- C8 (amended): the invariant survives only on the add path — after every
successful `add_criteria_to_cycle` the target cycle's active-weight sum is
≤ 1.0.  `update_criteria` re-checks (against 10.0) only when the patch
contains `weight`, and — the session flushing nothing before the SELECT —
that check sums the pre-patch active set with the patched weight
substituted; so an `is_active`-only patch is never checked, a combined
`weight` + `is_active` patch can leave the true active sum above 10, and
all a successful weight-patch guarantees is that this stale sum
(`staleActiveWeightSum`) is ≤ 10.0. -/
theorem criteria_ceiling_enforced_on_checked_paths :
    (∀ s cycleId items pr, addCriteriaToCycle s cycleId items = .ok pr →
        criteriaWeightSum pr.1 cycleId ≤ 1) ∧
    (∀ s critId p pr, p.weight.isSome → updateCriteria s critId p = .ok pr →
        staleActiveWeightSum s pr.2.cycleId pr.2 ≤ 10) := by
  constructor
  · intro s cycleId items pr h
    unfold addCriteriaToCycle at h
    split at h
    · exact absurd h (by simp)
    next cyc heq =>
      simp only [] at h
      split at h
      · exact absurd h (by simp)
      · split at h
        · exact absurd h (by simp)
        next hsum =>
          cases h
          rw [← findCycle_id heq]
          exact le_of_not_lt hsum
  · intro s critId p pr hw h
    unfold updateCriteria at h
    split at h
    · exact absurd h (by simp)
    next crit heq =>
      split at h
      · exact absurd h (by simp)
      next cyc heqcy =>
        split at h
        · exact absurd h (by simp)
        · simp only [] at h
          split at h
          · exact absurd h (by simp)
          next hguard =>
            split at h
            · exact absurd h (by simp)
            · cases h
              by_contra hgt
              exact hguard ⟨hw, lt_of_not_le hgt⟩

/-- C8 witness: the concrete result of adding one weight-0.5 criterion to an
empty DRAFT cycle, whose active-weight sum is indeed ≤ 1.0. -/
theorem criteria_ceiling_enforced_witness :
    addCriteriaToCycle stDraftEmpty 10 [⟨"Overall", 1/2, none, true, none⟩]
        = .ok ({ stDraftEmpty with
                 criteria := [⟨20, 10, "Overall", 1/2, none, true, none⟩],
                 nextId := 21, auditLog := ["criteria.add"] },
               [⟨20, 10, "Overall", 1/2, none, true, none⟩]) ∧
      criteriaWeightSum ({ stDraftEmpty with
                 criteria := [⟨20, 10, "Overall", 1/2, none, true, none⟩],
                 nextId := 21, auditLog := ["criteria.add"] } : St) 10 ≤ 1 :=
  ⟨by with_unfolding_all decide,
   criteria_ceiling_enforced_on_checked_paths.1 stDraftEmpty 10
     [⟨"Overall", 1/2, none, true, none⟩]
     ({ stDraftEmpty with
        criteria := [⟨20, 10, "Overall", 1/2, none, true, none⟩],
        nextId := 21, auditLog := ["criteria.add"] },
      [⟨20, 10, "Overall", 1/2, none, true, none⟩])
     (by with_unfolding_all decide)⟩

/-! Claim C9. -/

/-- C9 counterexample: `update_cycle` assigns a provided status directly, so
a DRAFT cycle can jump straight to FINALIZED (skipping OPEN and CLOSED),
and an OPEN cycle can move backwards to DRAFT — both as single successful
operations. -/
theorem updateCycle_skips_and_reverses :
    ((updateCycle stDraftCycle 10 ⟨none, none, none, some .FINALIZED⟩).map
      (fun p => p.2.status)) = .ok .FINALIZED ∧
    ((updateCycle stOpenCycle 10 ⟨none, none, none, some .DRAFT⟩).map
      (fun p => p.2.status)) = .ok .DRAFT := by
  constructor
  · with_unfolding_all decide
  · with_unfolding_all decide

/-- C9 (amended): the only lifecycle guarantees the code enforces are:
a created cycle starts in DRAFT; a FINALIZED cycle is terminal (every
`update_cycle` call on it fails, and `finalize_cycle` fails because the
status is no longer CLOSED); and `finalize_cycle` itself only fires on a
CLOSED cycle.  `update_cycle` on any non-FINALIZED cycle may set any of
the four statuses, in any order, skipping or reversing steps. -/
theorem cycle_status_rules :
    (∀ s name a b u pr, createCycle s name a b u = .ok pr →
        pr.2.status = .DRAFT) ∧
    (∀ s cid cyc, findCycle s cid = some cyc → cyc.status = .FINALIZED →
      (∀ p, updateCycle s cid p = .error .finalizedImmutable) ∧
      (∀ now, finalizeCycle s cid now = .error .cycleNotClosed)) ∧
    (∀ s cid cyc target, findCycle s cid = some cyc → cyc.status ≠ .FINALIZED →
      cyc.startAt < cyc.endAt →
      cycleFlushOk (replaceCycle s { cyc with status := target }) = true →
      ∃ pr, updateCycle s cid ⟨none, none, none, some target⟩ = .ok pr ∧
        pr.2.status = target) := by
  refine ⟨?_, ?_, ?_⟩
  · intro s name a b u pr h
    unfold createCycle at h
    split at h
    · exact absurd h (by simp)
    · simp only [] at h
      split at h
      · exact absurd h (by simp)
      · cases h; rfl
  · intro s cid cyc h1 h2
    constructor
    · intro p
      unfold updateCycle
      rw [h1]
      simp [h2]
    · intro now
      unfold finalizeCycle
      rw [h1]
      simp [h2]
  · intro s cid cyc target h1 h2 h3 h4
    unfold updateCycle
    rw [h1]
    have hc1 : ({ cyc with
        status := (some target).getD cyc.status,
        name := (none : Option String).getD cyc.name,
        startAt := (none : Option Int).getD cyc.startAt,
        endAt := (none : Option Int).getD cyc.endAt } : Cycle)
        = { cyc with status := target } := by
      simp
    simp only [h2, if_false, Option.getD_some, Option.getD_none, Option.isSome_none]
    simp only [hc1] at *
    refine ⟨(replaceCycle s { cyc with status := target },
             { cyc with status := target }), ?_, rfl⟩
    simp [h2, not_le.mpr h3, h4]

/-! Lemma layer for the approval workflow. -/

lemma nodup_append_single {α : Type _} (l : List α) (x : α) :
    (l ++ [x]).Nodup ↔ l.Nodup ∧ x ∉ l := by
  simp [List.nodup_append]

/-- An actor who is not a MANAGER never triggers the conflict check. -/
lemma selfConflict_of_role_ne {s : St} {nom : Nomination} {actor : User}
    (h : actor.role ≠ .MANAGER) : selfConflict s nom actor = false := by
  unfold selfConflict
  cases findUser s nom.submittedBy with
  | none => rfl
  | some u => simp [h]

/-- A MANAGER acting on their own submission triggers the conflict check. -/
lemma selfConflict_self_manager {s : St} {nom : Nomination} {actor : User}
    (hfind : findUser s nom.submittedBy = some actor)
    (h : actor.role = .MANAGER) : selfConflict s nom actor = true := by
  unfold selfConflict
  rw [hfind]
  simp [h]

/-- Updating the status of the nominations with a given id commutes with
the primary-key lookup. -/
lemma find?_status_update (l : List Nomination) (nid : Nat) (targetId : Nat)
    (st : NominationStatus) :
    (l.map (fun n => if n.id == targetId then { n with status := st } else n)).find?
        (fun n => n.id == nid)
      = (l.find? (fun n => n.id == nid)).map
          (fun n => if n.id == targetId then { n with status := st } else n) := by
  rw [List.find?_map]
  have hfun : ((fun n : Nomination => n.id == nid) ∘ (fun n =>
      if n.id == targetId then { n with status := st } else n))
      = (fun n : Nomination => n.id == nid) := by
    funext n
    by_cases hn : (n.id == targetId) = true <;> simp [Function.comp, hn]
  rw [hfun]

/-- The approvals flush succeeds when the old table satisfied its unique
constraint and no row for the new `(nomination, actor)` pair exists. -/
lemma approvalFlush_append (s : St) (ap : Approval)
    (hnd : (s.approvals.map (fun a => (a.nominationId, a.actorUserId))).Nodup)
    (hnew : ∀ a ∈ s.approvals,
      ¬(a.nominationId = ap.nominationId ∧ a.actorUserId = ap.actorUserId)) :
    approvalFlushOk { s with approvals := s.approvals ++ [ap],
                             nextId := s.nextId + 1 } = true := by
  unfold approvalFlushOk
  simp only [decide_eq_true_eq, List.map_append, List.map_cons, List.map_nil]
  rw [nodup_append_single]
  refine ⟨hnd, ?_⟩
  intro hmem
  rw [List.mem_map] at hmem
  obtain ⟨a, ha, hpair⟩ := hmem
  rw [Prod.mk.injEq] at hpair
  exact hnew a ha ⟨hpair.1, hpair.2⟩

/-- The reviews flush succeeds when the old table satisfied its unique
constraint, the new approval id is fresh, and the submitted reviews name
pairwise distinct criteria. -/
lemma reviewFlush_append (s : St) (rows : List ReviewRow) (apId : Nat)
    (hnd : (s.reviews.map (fun r => (r.approvalId, r.criteriaId))).Nodup)
    (hfresh : ∀ r ∈ s.reviews, r.approvalId ≠ apId)
    (hall : ∀ r ∈ rows, r.approvalId = apId)
    (hnew : (rows.map (fun r => (r.approvalId, r.criteriaId))).Nodup) :
    decide ((s.reviews ++ rows).map (fun r => (r.approvalId, r.criteriaId))).Nodup
      = true := by
  simp only [decide_eq_true_eq, List.map_append]
  rw [List.nodup_append]
  refine ⟨hnd, hnew, ?_⟩
  intro p hp hq
  rw [List.mem_map] at hp hq
  obtain ⟨r1, hr1, hp1⟩ := hp
  obtain ⟨r2, hr2, hp2⟩ := hq
  have h1 : r1.approvalId = p.1 := by rw [← hp1]
  have h2 : r2.approvalId = p.1 := by rw [← hp2]
  exact hfresh r1 hr1 (by rw [h1, ← h2, hall r2 hr2])

/-- The write phase of `_act` succeeds under the three database-consistency
hypotheses, returning the approval row with `rating or calculated_rating`
stored, and sets the nomination's status according to the action. -/
lemma actFinish_ok (s : St) (nom : Nomination) (actor : User)
    (action : ApprovalAction) (reason : Option String)
    (rating calcR : Option ℚ) (reviews : List ReviewIn) (now : Int) (nid : Nat)
    (hnomid : findNomination s nid = some nom)
    (hap : (s.approvals.map (fun a => (a.nominationId, a.actorUserId))).Nodup)
    (hnew : ∀ a ∈ s.approvals, ¬(a.nominationId = nom.id ∧ a.actorUserId = actor.id))
    (hrv : (s.reviews.map (fun r => (r.approvalId, r.criteriaId))).Nodup)
    (hfresh : ∀ r ∈ s.reviews, r.approvalId ≠ s.nextId)
    (hrvnd : (reviews.map ReviewIn.criteriaId).Nodup) :
    ∃ s', actFinish s nom actor action reason rating calcR reviews now
        = .ok (s', ⟨s.nextId, nom.id, actor.id, action, reason,
                    pyOr (if rating.isNone then calcR else rating) calcR, now⟩) ∧
      (findNomination s' nid).map Nomination.status
        = some (if action == ApprovalAction.APPROVE then
            NominationStatus.APPROVED else NominationStatus.REJECTED) := by
  unfold actFinish
  simp only []
  rw [if_neg, if_neg]
  · refine ⟨_, rfl, ?_⟩
    unfold findNomination at hnomid ⊢
    simp only []
    rw [find?_status_update, hnomid]
    simp
  · -- second flush: the reviews constraint
    intro hcontra
    apply hcontra
    unfold reviewFlushOk
    exact reviewFlush_append _ _ s.nextId hrv hfresh
      (by
        intro r hr
        rw [List.mem_map] at hr
        obtain ⟨p, _, hpr⟩ := hr
        rw [← hpr])
      (by
        have hmapped : (reviews.enum.map (fun (p : Nat × ReviewIn) =>
            (⟨s.nextId + 1 + p.1, s.nextId, p.2.criteriaId, p.2.rating, p.2.comment⟩
              : ReviewRow))).map (fun r => (r.approvalId, r.criteriaId))
            = reviews.map (fun rv => (s.nextId, rv.criteriaId)) := by
          rw [List.map_map]
          have : ((fun r : ReviewRow => (r.approvalId, r.criteriaId)) ∘
              (fun (p : Nat × ReviewIn) =>
                (⟨s.nextId + 1 + p.1, s.nextId, p.2.criteriaId, p.2.rating, p.2.comment⟩
                  : ReviewRow)))
              = (fun (p : Nat × ReviewIn) => (s.nextId, p.2.criteriaId)) := rfl
          rw [this]
          have h2 : (fun (p : Nat × ReviewIn) => (s.nextId, p.2.criteriaId))
              = (fun rv : ReviewIn => (s.nextId, rv.criteriaId)) ∘ Prod.snd := rfl
          rw [h2, ← List.map_map, List.enum_map_snd]
        rw [hmapped]
        have h3 : (reviews.map (fun rv => (s.nextId, rv.criteriaId)))
            = (reviews.map ReviewIn.criteriaId).map (fun c => (s.nextId, c)) := by
          rw [List.map_map]
          rfl
        rw [h3]
        exact hrvnd.map (fun a b hab => by
          simpa using congrArg Prod.snd hab))
  · intro hcontra
    apply hcontra
    exact approvalFlush_append s _ hap hnew

/-- The full happy path of `_act`: all validations pass, the approval row is
created with `rating or calculated_rating`, and the nomination's status
follows the action. -/
lemma act_ok (s : St) (nid aid : Nat) (action : ApprovalAction)
    (reason : Option String) (rating : Option ℚ)
    (criteriaReviews : Option (List ReviewIn)) (now : Int)
    (nom : Nomination) (actor : User) (calcR : Option ℚ)
    (h1 : findNomination s nid = some nom)
    (h2 : nom.status = .PENDING)
    (h3 : findUser s aid = some actor)
    (h4 : approverRoleOk actor.role = true)
    (h5 : selfConflict s nom actor = false)
    (h6 : calcRatingRes s nom (criteriaReviews.getD []) = .ok calcR)
    (hap : (s.approvals.map (fun a => (a.nominationId, a.actorUserId))).Nodup)
    (hnew : ∀ a ∈ s.approvals, ¬(a.nominationId = nom.id ∧ a.actorUserId = actor.id))
    (hrv : (s.reviews.map (fun r => (r.approvalId, r.criteriaId))).Nodup)
    (hfresh : ∀ r ∈ s.reviews, r.approvalId ≠ s.nextId)
    (hrvnd : ((criteriaReviews.getD []).map ReviewIn.criteriaId).Nodup) :
    ∃ s', act s nid aid action reason rating criteriaReviews now
        = .ok (s', ⟨s.nextId, nom.id, actor.id, action, reason,
                    pyOr (if rating.isNone then calcR else rating) calcR, now⟩) ∧
      (findNomination s' nid).map Nomination.status
        = some (if action == ApprovalAction.APPROVE then
            NominationStatus.APPROVED else NominationStatus.REJECTED) := by
  unfold act
  rw [h1]
  simp only []
  rw [if_neg (by simp [h2])]
  rw [h3]
  simp only []
  rw [if_neg (by simp [h4])]
  rw [if_neg (by simp [h5])]
  rw [h6]
  exact actFinish_ok s nom actor action reason rating calcR
    (criteriaReviews.getD []) now nid h1 hap hnew hrv hfresh hrvnd

/-! Claim C6. -/

/-- C6: on a PENDING nomination, a MANAGER who is also its submitter is
always blocked with the self-approval error (both approve and reject; the
error path writes nothing, so the nomination stays PENDING), while an HR
actor always succeeds even when acting on their own submission, moving the
nomination to the status matching the action. -/
theorem self_approval_rules (s : St) (nid aid : Nat) (now : Int)
    (nom : Nomination) (actor : User)
    (h1 : findNomination s nid = some nom)
    (h2 : nom.status = .PENDING)
    (h3 : findUser s aid = some actor)
    (h4 : nom.submittedBy = aid)
    (hap : (s.approvals.map (fun a => (a.nominationId, a.actorUserId))).Nodup)
    (hnew : ∀ a ∈ s.approvals, ¬(a.nominationId = nom.id ∧ a.actorUserId = actor.id))
    (hrv : (s.reviews.map (fun r => (r.approvalId, r.criteriaId))).Nodup)
    (hfresh : ∀ r ∈ s.reviews, r.approvalId ≠ s.nextId) :
    (actor.role = .MANAGER →
      approve s nid aid none none none now = .error .selfApprovalForbidden ∧
      reject s nid aid none none none now = .error .selfApprovalForbidden) ∧
    (actor.role = .HR →
      ∀ action, ∃ s' ap, act s nid aid action none none none now = .ok (s', ap) ∧
        (findNomination s' nid).map Nomination.status
          = some (if action == ApprovalAction.APPROVE then
              NominationStatus.APPROVED else NominationStatus.REJECTED)) := by
  constructor
  · intro hrole
    have hconf : selfConflict s nom actor = true :=
      selfConflict_self_manager (by rw [h4]; exact h3) hrole
    constructor
    · unfold approve act
      rw [h1]
      simp only []
      rw [if_neg (by simp [h2]), h3]
      simp only []
      rw [if_neg (by simp [approverRoleOk, hrole])]
      rw [if_pos (by simp [hconf])]
    · unfold reject act
      rw [h1]
      simp only []
      rw [if_neg (by simp [h2]), h3]
      simp only []
      rw [if_neg (by simp [approverRoleOk, hrole])]
      rw [if_pos (by simp [hconf])]
  · intro hrole action
    obtain ⟨s', heq, hstat⟩ := act_ok s nid aid action none none none now
      nom actor none h1 h2 h3 (by simp [approverRoleOk, hrole])
      (selfConflict_of_role_ne (by rw [hrole]; intro hcontra; cases hcontra))
      rfl hap hnew hrv hfresh (by simp)
    exact ⟨s', _, heq, hstat⟩

/-- C6 witness: in a concrete state where user 2 is the MANAGER who
submitted PENDING nomination 12, both approve and reject fail with the
self-approval error. -/
theorem self_approval_rules_witness :
    approve stSelfSubmit 12 2 none none none 50 = .error .selfApprovalForbidden ∧
    reject stSelfSubmit 12 2 none none none 50 = .error .selfApprovalForbidden :=
  (self_approval_rules stSelfSubmit 12 2 50 ⟨12, 10, 4, some 100, 2, 5, .PENDING⟩
      ⟨2, .MANAGER, some 100⟩ (by with_unfolding_all decide)
      (by with_unfolding_all decide) (by with_unfolding_all decide)
      (by with_unfolding_all decide) (by with_unfolding_all decide)
      (by intro a ha; cases ha) (by with_unfolding_all decide)
      (by intro r hr; cases hr)).1 rfl

/-- C9 witness: moving an OPEN cycle to CLOSED through `update_cycle`
succeeds and stores the requested status. -/
theorem cycle_status_rules_witness :
    ∃ pr, updateCycle stOpenCycle 10 ⟨none, none, none, some .CLOSED⟩ = .ok pr ∧
      pr.2.status = .CLOSED :=
  cycle_status_rules.2.2 stOpenCycle 10 ⟨10, "Q1", 0, 100, .OPEN, 1⟩ .CLOSED
    (by with_unfolding_all decide) (by with_unfolding_all decide)
    (by with_unfolding_all decide) (by with_unfolding_all decide)

/-! Claim C5. -/

/-- Sum of the submitted review ratings (`Σ(review.rating)`). -/
def sumRatings (rs : List ReviewIn) : ℚ :=
  (rs.map ReviewIn.rating).sum

/-- Sum of the resolved criteria weights (`Σ(criteria.weight)`); only used
under the hypothesis that every review's criterion resolves. -/
def sumWeights (crits : List Criterion) (rs : List ReviewIn) : ℚ :=
  (rs.map (fun rv => match crits.find? (fun c => c.id == rv.criteriaId) with
    | some c => c.weight
    | none => 0)).sum

/-- The derived rating of `_act`, phrased as in the specification:
`(Σrating / Σweight) * 10`, or 0 when the total weight is 0. -/
def derivedRating (s : St) (nom : Nomination) (rs : List ReviewIn) : ℚ :=
  if sumWeights (cycleCriteria s nom.cycleId) rs > 0 then
    sumRatings rs / sumWeights (cycleCriteria s nom.cycleId) rs * 10
  else 0

/-- The review loop returns the two accumulated sums when every review
resolves and is in range. -/
lemma accumulateReviews_ok (crits : List Criterion) :
    ∀ (rs : List ReviewIn),
    (∀ rv ∈ rs, ∃ c, crits.find? (fun c => c.id == rv.criteriaId) = some c ∧
        0 ≤ rv.rating ∧ rv.rating ≤ c.weight) →
    ∀ a b, accumulateReviews crits rs a b
      = .ok (a + sumRatings rs, b + sumWeights crits rs)
  | [], _, a, b => by simp [accumulateReviews, sumRatings, sumWeights]
  | rv :: rest, h, a, b => by
    obtain ⟨c, hc, h0, hw⟩ := h rv (List.mem_cons_self _ _)
    unfold accumulateReviews
    rw [hc]
    simp only []
    rw [if_neg (by push_neg; exact ⟨h0, hw⟩)]
    rw [accumulateReviews_ok crits rest
      (fun x hx => h x (List.mem_cons_of_mem _ hx)) _ _]
    simp only [sumRatings, sumWeights, List.map_cons, List.sum_cons, hc]
    rw [add_assoc, add_assoc]

/-- The review loop fails with the range error when every review resolves
but some review is out of range. -/
lemma accumulateReviews_bad (crits : List Criterion) :
    ∀ (rs : List ReviewIn),
    (∀ rv ∈ rs, ∃ c, crits.find? (fun c => c.id == rv.criteriaId) = some c) →
    (∃ rv ∈ rs, ∃ c, crits.find? (fun c => c.id == rv.criteriaId) = some c ∧
        (rv.rating < 0 ∨ rv.rating > c.weight)) →
    ∀ a b, accumulateReviews crits rs a b = .error .ratingOutOfRange
  | [], _, hbad, _, _ => by simp at hbad
  | rv :: rest, hres, hbad, a, b => by
    obtain ⟨c, hc⟩ := hres rv (List.mem_cons_self _ _)
    unfold accumulateReviews
    rw [hc]
    simp only []
    by_cases hviol : rv.rating < 0 ∨ rv.rating > c.weight
    · rw [if_pos hviol]
    · rw [if_neg hviol]
      apply accumulateReviews_bad crits rest
        (fun x hx => hres x (List.mem_cons_of_mem _ hx))
      obtain ⟨rv2, hmem, c2, hc2, hviol2⟩ := hbad
      rcases List.mem_cons.mp hmem with heq | hmem2
      · subst heq
        rw [hc] at hc2
        cases hc2
        exact absurd hviol2 hviol
      · exact ⟨rv2, hmem2, c2, hc2, hviol2⟩

/-- With nonempty resolving in-range reviews, the derived-rating step
returns the specification formula. -/
lemma calcRatingRes_ok (s : St) (nom : Nomination) (rs : List ReviewIn)
    (hne : rs ≠ [])
    (hres : ∀ rv ∈ rs, ∃ c,
      (cycleCriteria s nom.cycleId).find? (fun c => c.id == rv.criteriaId) = some c ∧
      0 ≤ rv.rating ∧ rv.rating ≤ c.weight) :
    calcRatingRes s nom rs = .ok (some (derivedRating s nom rs)) := by
  unfold calcRatingRes
  rw [if_neg (by simp [List.isEmpty_iff, hne])]
  rw [accumulateReviews_ok (cycleCriteria s nom.cycleId) rs hres 0 0]
  unfold derivedRating
  simp [Except.map]

/-- C5 counterexample: with one review of rating 1 on a weight-2 criterion
(derived rating 5) and an explicit rating argument of 0, the stored
`Approval.rating` is 5, not the explicit 0 — `rating or calculated_rating`
treats the explicit 0 as falsy, so it does not take precedence. -/
theorem explicit_zero_rating_is_overridden :
    ((act stReview 12 1 .APPROVE none (some 0) (some [⟨11, 1, none⟩]) 50).map
      (fun p => p.2.rating)) = .ok (some 5) ∧ some (5 : ℚ) ≠ some (0 : ℚ) := by
  constructor
  · with_unfolding_all decide
  · with_unfolding_all decide

/-- C5 (amended): for an approval/rejection with `criteria_reviews`, each
review's rating must satisfy `0 ≤ rating ≤ criterion.weight` or the call
fails with the range error (writing nothing); the derived rating equals
`(Σ review.rating / Σ criterion.weight) × 10` (0 when the total weight is
zero); an explicit nonzero rating takes precedence over the derived value,
but an explicit rating of 0 is treated as absent: the derived value is
stored instead (or null when no reviews were supplied). -/
theorem review_rating_rules (s : St) (nid aid : Nat) (action : ApprovalAction)
    (reason : Option String) (now : Int) (nom : Nomination) (actor : User)
    (h1 : findNomination s nid = some nom)
    (h2 : nom.status = .PENDING)
    (h3 : findUser s aid = some actor)
    (h4 : approverRoleOk actor.role = true)
    (h5 : selfConflict s nom actor = false)
    (hap : (s.approvals.map (fun a => (a.nominationId, a.actorUserId))).Nodup)
    (hnew : ∀ a ∈ s.approvals, ¬(a.nominationId = nom.id ∧ a.actorUserId = actor.id))
    (hrv : (s.reviews.map (fun r => (r.approvalId, r.criteriaId))).Nodup)
    (hfresh : ∀ r ∈ s.reviews, r.approvalId ≠ s.nextId) :
    (∀ rs rating,
      (∀ rv ∈ rs, ∃ c, (cycleCriteria s nom.cycleId).find?
          (fun c => c.id == rv.criteriaId) = some c) →
      (∃ rv ∈ rs, ∃ c, (cycleCriteria s nom.cycleId).find?
          (fun c => c.id == rv.criteriaId) = some c ∧
          (rv.rating < 0 ∨ rv.rating > c.weight)) →
      act s nid aid action reason rating (some rs) now
        = .error .ratingOutOfRange) ∧
    (∀ rs rating, rs ≠ [] →
      (rs.map ReviewIn.criteriaId).Nodup →
      (∀ rv ∈ rs, ∃ c, (cycleCriteria s nom.cycleId).find?
          (fun c => c.id == rv.criteriaId) = some c ∧
          0 ≤ rv.rating ∧ rv.rating ≤ c.weight) →
      ∃ pr, act s nid aid action reason rating (some rs) now = .ok pr ∧
        pr.2.rating = (match rating with
          | some v => if v = 0 then some (derivedRating s nom rs) else some v
          | none => some (derivedRating s nom rs))) ∧
    (∀ rating, ∃ pr, act s nid aid action reason rating none now = .ok pr ∧
        pr.2.rating = (match rating with
          | some v => if v = 0 then none else some v
          | none => none)) := by
  refine ⟨?_, ?_, ?_⟩
  · intro rs rating hres hbad
    have hne : rs ≠ [] := by
      obtain ⟨rv, hmem, _⟩ := hbad
      intro hnil
      rw [hnil] at hmem
      cases hmem
    have hcalc : calcRatingRes s nom rs = .error .ratingOutOfRange := by
      unfold calcRatingRes
      rw [if_neg (by simp [List.isEmpty_iff, hne])]
      rw [accumulateReviews_bad (cycleCriteria s nom.cycleId) rs hres hbad 0 0]
      rfl
    unfold act
    rw [h1]
    simp only []
    rw [if_neg (by simp [h2]), h3]
    simp only []
    rw [if_neg (by simp [h4]), if_neg (by simp [h5])]
    rw [show (some rs).getD [] = rs from rfl, hcalc]
  · intro rs rating hne hnd hres
    obtain ⟨s', heq, _⟩ := act_ok s nid aid action reason rating (some rs) now
      nom actor (some (derivedRating s nom rs)) h1 h2 h3 h4 h5
      (calcRatingRes_ok s nom rs hne hres) hap hnew hrv hfresh hnd
    refine ⟨_, heq, ?_⟩
    cases rating with
    | none => simp [pyOr]
    | some v =>
      by_cases hv : v = 0 <;> simp [pyOr, hv]
  · intro rating
    obtain ⟨s', heq, _⟩ := act_ok s nid aid action reason rating none now
      nom actor none h1 h2 h3 h4 h5 rfl hap hnew hrv hfresh (by simp)
    refine ⟨_, heq, ?_⟩
    cases rating with
    | none => simp [pyOr]
    | some v =>
      by_cases hv : v = 0 <;> simp [pyOr, hv]

/-- C5 witness: one review of rating 1 on the weight-2 criterion with no
explicit rating stores the derived rating. -/
theorem review_rating_rules_witness :
    ∃ pr, act stReview 12 1 .APPROVE none none (some [⟨11, 1, none⟩]) 50 = .ok pr ∧
      pr.2.rating = some (derivedRating stReview
        ⟨12, 10, 4, some 100, 3, 5, .PENDING⟩ [⟨11, 1, none⟩]) :=
  (review_rating_rules stReview 12 1 .APPROVE none 50
      ⟨12, 10, 4, some 100, 3, 5, .PENDING⟩ ⟨1, .HR, none⟩
      (by with_unfolding_all decide) (by with_unfolding_all decide)
      (by with_unfolding_all decide) (by with_unfolding_all decide)
      (by with_unfolding_all decide) (by with_unfolding_all decide)
      (by intro a ha; cases ha) (by with_unfolding_all decide)
      (by intro r hr; cases hr)).2.1
    [⟨11, 1, none⟩] none (by intro h; cases h) (by with_unfolding_all decide)
    (by
      intro rv hrv
      rw [List.mem_singleton] at hrv
      subst hrv
      exact ⟨⟨11, 10, "Impact", 2, none, true, none⟩,
        by with_unfolding_all decide, by with_unfolding_all decide,
        by with_unfolding_all decide⟩)

/-! Claim C7. -/

/-- C7: evaluating `submit_nomination` at the failing input — a second
submission for an already-nominated `(cycle, nominee)` pair, by a different
eligible submitter.  The nomination row is inserted and flushed at line 85,
before the `try` block of lines 130-134, so the unique-constraint violation
surfaces as the raw uncaught `IntegrityError` (HTTP 500), not as the
"Duplicate nomination" `ValueError` the handler was written to produce.
The transaction rollback still leaves no rows behind. -/
theorem duplicate_submission_uncaught :
    submitNomination stExistingNomination 10 4 2 [] 50 = .error .integrityError ∧
    submitNomination stExistingNomination 10 4 2 [] 50
      ≠ .error .duplicateNomination := by
  constructor
  · with_unfolding_all decide
  · with_unfolding_all decide

/-! Claim C10. -/

/-- Python `a or b` restricted to option values (`None` falsy), used to
describe lookups in rebuilt answer dictionaries. -/
def optOr (a b : Option AVal) : Option AVal :=
  match a with
  | some v => some v
  | none => b

lemma lookupKey_append (l1 l2 : AnswerDict) (k : String) :
    lookupKey (l1 ++ l2) k = optOr (lookupKey l1 k) (lookupKey l2 k) := by
  induction l1 with
  | nil => rfl
  | cons kv l1 ih =>
    by_cases hk : (kv.1 == k) = true
    · simp [lookupKey, List.find?, hk, optOr]
    · rw [Bool.not_eq_true] at hk
      simp only [lookupKey, List.cons_append, List.find?, hk] at *
      exact ih

/-- Lookup in the dictionary rebuilt by the key-copying fold. -/
lemma filterGo_lookup (d : AnswerDict) :
    ∀ (ks : List String) (acc : AnswerDict) (k : String),
    lookupKey (ks.foldl (fun acc k2 =>
        match lookupKey d k2 with
        | some v => acc ++ [(k2, v)]
        | none => acc) acc) k
      = optOr (lookupKey acc k) (if k ∈ ks then lookupKey d k else none)
  | [], acc, k => by
    cases h : lookupKey acc k <;> simp [List.foldl, optOr, h]
  | k2 :: ks, acc, k => by
    rw [List.foldl_cons]
    cases h2 : lookupKey d k2 with
    | none =>
      simp only []
      rw [filterGo_lookup d ks acc k]
      by_cases hk : k = k2
      · subst hk
        by_cases hmem : k ∈ ks <;> simp [hmem, h2, List.mem_cons]
      · simp [List.mem_cons, hk]
    | some v =>
      simp only []
      rw [filterGo_lookup d ks (acc ++ [(k2, v)]) k]
      rw [lookupKey_append]
      by_cases hk : k = k2
      · subst hk
        have hsingle : lookupKey [(k, v)] k = some v := by
          simp [lookupKey, List.find?]
        rw [hsingle]
        cases ha : lookupKey acc k <;>
          simp [optOr, List.mem_cons, h2, ha]
      · have hsingle : lookupKey [(k2, v)] k = none := by
          have hb : (k2 == k) = false := by
            rw [beq_eq_false_iff_ne]
            exact Ne.symm hk
          simp [lookupKey, List.find?, hb]
        rw [hsingle]
        cases ha : lookupKey acc k <;>
          simp [optOr, List.mem_cons, hk, ha]

/-- The stored answer dictionary holds exactly the allowed keys of the
submitted payload, with unchanged values. -/
lemma lookup_filterAnswer (d : AnswerDict) (k : String) :
    lookupKey (filterAnswer d) k
      = if k ∈ allowedAnswerKeys then lookupKey d k else none := by
  unfold filterAnswer
  rw [filterGo_lookup d allowedAnswerKeys [] k]
  rfl

/-- C10: `submit_nomination` validates nothing about an answer payload
against the criterion's configured question type — for every configuration
(including `required` / `image_required` flags) and every payload dict the
submission succeeds; the stored answer keeps exactly the keys `text`,
`selected`, `selected_list`, `image_url` with unchanged values, silently
dropping every other key; a payload whose keys all come from that list is
stored and returned by the `get_nomination` read path unchanged (as a
dictionary). -/
theorem answer_payload_passthrough :
    (∀ (d : AnswerDict) (k : String), lookupKey (filterAnswer d) k
        = if k ∈ allowedAnswerKeys then lookupKey d k else none) ∧
    (∀ (d : AnswerDict), (∀ kv ∈ d, kv.1 ∈ allowedAnswerKeys) →
        ∀ k, lookupKey (filterAnswer d) k = lookupKey d k) ∧
    (∀ (cfg : Option CriteriaConfig) (d : AnswerDict), d ≠ [] →
      ∃ pr, submitNomination (stAnswerCycle cfg) 10 4 3
          [⟨11, none, none, some d⟩] 50 = .ok pr ∧
        readNominationAnswer pr.1 pr.2.id 11 = some (some (filterAnswer d))) := by
  refine ⟨lookup_filterAnswer, ?_, ?_⟩
  · intro d hkeys k
    rw [lookup_filterAnswer d k]
    by_cases hk : k ∈ allowedAnswerKeys
    · simp [hk]
    · rw [if_neg hk]
      cases hl : lookupKey d k with
      | none => rfl
      | some v =>
        exfalso
        unfold lookupKey at hl
        cases hfind : d.find? (fun kv => kv.1 == k) with
        | none => rw [hfind] at hl; cases hl
        | some kv =>
          have hmem := List.mem_of_find?_eq_some hfind
          have hkey := List.find?_some hfind
          simp only [beq_iff_eq] at hkey
          exact hk (hkey ▸ hkeys kv hmem)
  · intro cfg d hne
    cases d with
    | nil => exact absurd rfl hne
    | cons hd tl =>
      exact ⟨({ stAnswerCycle cfg with
          nominations := [⟨20, 10, 4, some 100, 3, 50, .PENDING⟩],
          scores := [⟨21, 20, 11, none, some (filterAnswer (hd :: tl)), none⟩],
          auditLog := ["nomination.submit"],
          nextId := 22 }, ⟨20, 10, 4, some 100, 3, 50, .PENDING⟩), rfl, rfl⟩

/-- C10 witness: a `multi_select` payload containing only `selected_list`
round-trips unchanged through submission and the read path. -/
theorem answer_payload_passthrough_witness :
    ∃ pr, submitNomination
        (stAnswerCycle (some ⟨"multi_select", true, ["Python", "React"], none⟩))
        10 4 3
        [⟨11, none, none, some [("selected_list", AVal.list ["Python", "React"])]⟩]
        50 = .ok pr ∧
      readNominationAnswer pr.1 pr.2.id 11
        = some (some (filterAnswer
            [("selected_list", AVal.list ["Python", "React"])])) :=
  answer_payload_passthrough.2.2
    (some ⟨"multi_select", true, ["Python", "React"], none⟩)
    [("selected_list", AVal.list ["Python", "React"])]
    (by intro h; cases h)

/-! Lemma layer for the ranking engine. -/

/-- Lookup in the totals dictionary. -/
def lk (m : List (Nat × ℚ)) (k : Nat) : Option ℚ :=
  (m.find? (fun p => p.1 == k)).map Prod.snd

/-- Per-row weighted contribution, written as the specification reads:
legacy numeric score times criterion weight (0 stands for an absent score;
it is only used under the all-scores-present hypothesis). -/
def rowContribution (t : Nomination × ScoreRow × Criterion) : ℚ :=
  (((t.2.1).score.getD 0 : Int) : ℚ) * t.2.2.weight

/-- The specification's total for one nomination: the sum of the weighted
contributions of its score rows. -/
def nomTotal (rows : List (Nomination × ScoreRow × Criterion)) (nid : Nat) : ℚ :=
  ((rows.filter (fun t => t.1.id == nid)).map rowContribution).sum

lemma lk_upsertAdd (m : List (Nat × ℚ)) (k : Nat) (v : ℚ) (q : Nat) :
    lk (upsertAdd m k v) q
      = if q = k then some ((lk m q).getD 0 + v) else lk m q := by
  induction m with
  | nil =>
    by_cases hq : q = k
    · subst hq
      simp [lk, upsertAdd, List.find?]
    · have hb : (k == q) = false := by
        rw [beq_eq_false_iff_ne]
        exact Ne.symm hq
      simp [lk, upsertAdd, List.find?, hb, hq]
  | cons hd m ih =>
    obtain ⟨k1, v1⟩ := hd
    unfold upsertAdd
    by_cases h1 : (k1 == k) = true
    · rw [if_pos h1]
      rw [beq_iff_eq] at h1
      subst h1
      by_cases hq : q = k1
      · subst hq
        simp [lk, List.find?]
      · have hb : (k1 == q) = false := by
          rw [beq_eq_false_iff_ne]
          exact Ne.symm hq
        simp [lk, List.find?, hb, hq]
    · rw [if_neg (by simp [h1])]
      rw [Bool.not_eq_true] at h1
      by_cases hq : q = k1
      · subst hq
        have hqk : ¬ q = k := by
          intro hcontra
          rw [hcontra] at h1
          simp at h1
        simp [lk, List.find?, hqk]
      · have hb : (k1 == q) = false := by
          rw [beq_eq_false_iff_ne]
          exact Ne.symm hq
        have hl : lk ((k1, v1) :: m) q = lk m q := by
          simp [lk, List.find?, hb]
        have hl2 : lk ((k1, v1) :: upsertAdd m k v) q = lk (upsertAdd m k v) q := by
          simp [lk, List.find?, hb]
        rw [hl, hl2, ih]

lemma upsertAdd_keys (m : List (Nat × ℚ)) (k : Nat) (v : ℚ) :
    (upsertAdd m k v).map Prod.fst
      = if k ∈ m.map Prod.fst then m.map Prod.fst else m.map Prod.fst ++ [k] := by
  induction m with
  | nil => simp [upsertAdd]
  | cons hd m ih =>
    obtain ⟨k1, v1⟩ := hd
    unfold upsertAdd
    by_cases h1 : (k1 == k) = true
    · rw [if_pos h1]
      rw [beq_iff_eq] at h1
      subst h1
      simp [List.mem_cons]
    · rw [if_neg (by simp [h1])]
      rw [Bool.not_eq_true, beq_eq_false_iff_ne] at h1
      simp only [List.map_cons, ih]
      by_cases hmem : k ∈ m.map Prod.fst
      · simp [List.mem_cons, hmem]
      · simp [List.mem_cons, hmem, Ne.symm h1]

lemma upsertAdd_keys_nodup (m : List (Nat × ℚ)) (k : Nat) (v : ℚ)
    (h : (m.map Prod.fst).Nodup) : ((upsertAdd m k v).map Prod.fst).Nodup := by
  rw [upsertAdd_keys]
  by_cases hmem : k ∈ m.map Prod.fst
  · rwa [if_pos hmem]
  · rw [if_neg hmem, nodup_append_single]
    exact ⟨h, hmem⟩

lemma lk_of_mem : ∀ {m : List (Nat × ℚ)}, (m.map Prod.fst).Nodup →
    ∀ {p : Nat × ℚ}, p ∈ m → lk m p.1 = some p.2
  | [], _, _, hp => absurd hp (by simp)
  | q :: m, hnd, p, hp => by
    rcases List.mem_cons.mp hp with heq | hmem
    · subst heq
      simp [lk, List.find?]
    · have hne : (q.1 == p.1) = false := by
        rw [beq_eq_false_iff_ne]
        intro hcontra
        rw [List.map_cons, List.nodup_cons] at hnd
        exact hnd.1 (hcontra ▸ List.mem_map_of_mem Prod.fst hmem)
      have : lk (q :: m) p.1 = lk m p.1 := by
        simp [lk, List.find?, hne]
      rw [this]
      exact lk_of_mem (by
        rw [List.map_cons, List.nodup_cons] at hnd
        exact hnd.2) hmem

lemma nomTotal_filter_empty (rows : List (Nomination × ScoreRow × Criterion))
    (k : Nat) (h : (rows.filter (fun t => t.1.id == k)) = []) :
    nomTotal rows k = 0 := by
  unfold nomTotal
  rw [h]
  rfl

/-- The accumulation loop of `compute_cycle_rankings`, characterized: when
every joined row has a numeric legacy score, it succeeds and the dictionary
entry for a nomination is the base value plus the specification total. -/
lemma accumulateTotals_go :
    ∀ (rows : List (Nomination × ScoreRow × Criterion)) (m : List (Nat × ℚ)),
    (∀ t ∈ rows, (t.2.1).score.isSome) →
    (m.map Prod.fst).Nodup →
    ∃ m', accumulateTotals m rows = .ok m' ∧ (m'.map Prod.fst).Nodup ∧
      ∀ k, lk m' k =
        (if (rows.filter (fun t => t.1.id == k)) = [] then lk m k
         else some ((lk m k).getD 0 + nomTotal rows k))
  | [], m, _, hnd => ⟨m, rfl, hnd, by intro k; simp [List.filter]⟩
  | t :: rest, m, h, hnd => by
    have hsome := h t (List.mem_cons_self _ _)
    rw [Option.isSome_iff_exists] at hsome
    obtain ⟨n, hn⟩ := hsome
    obtain ⟨m', hacc, hnd', hchar⟩ := accumulateTotals_go rest
      (upsertAdd m t.1.id ((n : ℚ) * t.2.2.weight))
      (fun x hx => h x (List.mem_cons_of_mem _ hx))
      (upsertAdd_keys_nodup m _ _ hnd)
    refine ⟨m', ?_, hnd', ?_⟩
    · unfold accumulateTotals
      rw [hn]
      exact hacc
    · intro k
      rw [hchar k]
      have hcontrib : rowContribution t = (n : ℚ) * t.2.2.weight := by
        unfold rowContribution
        rw [hn]
        rfl
      by_cases hk : (t.1.id == k) = true
      · have hkeq : t.1.id = k := by rwa [beq_iff_eq] at hk
        have hfilter : ((t :: rest).filter (fun t => t.1.id == k))
            = t :: rest.filter (fun t => t.1.id == k) :=
          List.filter_cons_of_pos hk
        rw [hfilter]
        have hlk : lk (upsertAdd m t.1.id ((n : ℚ) * t.2.2.weight)) k
            = some ((lk m k).getD 0 + (n : ℚ) * t.2.2.weight) := by
          rw [lk_upsertAdd]
          rw [if_pos hkeq.symm]
        have hTotal : nomTotal (t :: rest) k
            = (n : ℚ) * t.2.2.weight + nomTotal rest k := by
          unfold nomTotal
          rw [hfilter, List.map_cons, List.sum_cons, hcontrib]
        by_cases hrest : (rest.filter (fun t => t.1.id == k)) = []
        · rw [if_pos hrest, hlk]
          rw [if_neg (by simp), hTotal]
          rw [nomTotal_filter_empty rest k hrest]
          rw [add_zero]
        · rw [if_neg hrest, hlk]
          rw [if_neg (by simp), hTotal]
          simp only [Option.getD_some]
          rw [add_assoc]
      · have hfilter : ((t :: rest).filter (fun t => t.1.id == k))
            = rest.filter (fun t => t.1.id == k) :=
          List.filter_cons_of_neg (by simpa using hk)
        have hlk : lk (upsertAdd m t.1.id ((n : ℚ) * t.2.2.weight)) k = lk m k := by
          rw [lk_upsertAdd]
          rw [if_neg (by
            intro hcontra
            rw [Bool.not_eq_true, beq_eq_false_iff_ne] at hk
            exact hk hcontra.symm)]
        rw [hfilter, hlk]
        have hTotal : nomTotal (t :: rest) k = nomTotal rest k := by
          unfold nomTotal
          rw [hfilter]
        rw [hTotal]

/-- The accumulation loop raises the `Decimal(None)` type error as soon as
a row with a null legacy score is processed. -/
lemma accumulateTotals_err :
    ∀ (rows : List (Nomination × ScoreRow × Criterion)) (m : List (Nat × ℚ)),
    (∃ t ∈ rows, (t.2.1).score = none) →
    accumulateTotals m rows = .error .nullScoreTypeError
  | [], _, h => by
    obtain ⟨t, ht, _⟩ := h
    cases ht
  | t :: rest, m, h => by
    unfold accumulateTotals
    cases hscore : (t.2.1).score with
    | none => rfl
    | some n =>
      simp only []
      apply accumulateTotals_err rest
      obtain ⟨t2, hmem, hnone⟩ := h
      rcases List.mem_cons.mp hmem with heq | hmem2
      · subst heq
        rw [hscore] at hnone
        cases hnone
      · exact ⟨t2, hmem2, hnone⟩

/-- Modelled from the claim's words (dense rank): the first item gets
rank 1; a tied (not strictly lower, i.e. equal on a descending list) score
repeats the previous rank; a strictly lower score gets its 1-based
position index as rank. -/
def claimDenseRanksAux (pos prevRank : Nat) (prev : Option ℚ) :
    List ℚ → List Nat
  | [] => []
  | v :: rest =>
    let r := match prev with
      | none => 1
      | some p => if v = p then prevRank else pos
    r :: claimDenseRanksAux (pos + 1) r (some v) rest

/-- Modelled from the claim's words: dense ranks of a descending score
list. -/
def claimDenseRanks (vs : List ℚ) : List Nat :=
  claimDenseRanksAux 1 1 none vs

lemma ranks_correspond :
    ∀ (items : List (Nat × ℚ)) (idx R : Nat) (p : ℚ),
    (∀ x ∈ items, x.2 ≤ p) →
    List.Pairwise (fun a b => b.2 ≤ a.2) items →
    (assignRanksAux idx R (some p) items).map (fun t => t.2.2)
      = claimDenseRanksAux idx R (some p) (items.map Prod.snd)
  | [], _, _, _, _, _ => rfl
  | x :: rest, idx, R, p, hle, hpw => by
    have hxle : x.2 ≤ p := hle x (List.mem_cons_self _ _)
    have hrest : ∀ y ∈ rest, y.2 ≤ x.2 := (List.pairwise_cons.mp hpw).1
    have hpwrest := (List.pairwise_cons.mp hpw).2
    unfold assignRanksAux claimDenseRanksAux
    simp only [List.map_cons]
    by_cases heq : x.2 = p
    · have hdec : decide (x.2 < p) = false := by simp [heq]
      simp only [hdec, Bool.false_eq_true, if_false, if_pos heq]
      congr 1
      rw [show some p = some x.2 from by rw [heq]]
      exact ranks_correspond rest (idx + 1) R x.2 hrest hpwrest
    · have hlt : x.2 < p := lt_of_le_of_ne hxle heq
      have hdec : decide (x.2 < p) = true := by simp [hlt]
      simp only [hdec, if_true, if_neg heq]
      congr 1
      exact ranks_correspond rest (idx + 1) idx x.2 hrest hpwrest

/-- The rank loop of `compute_cycle_rankings`, on a descending list, is
exactly the claim's dense-rank function. -/
lemma assignRanks_eq_claimDenseRanks (items : List (Nat × ℚ))
    (hpw : List.Pairwise (fun a b => b.2 ≤ a.2) items) :
    (assignRanks items).map (fun t => t.2.2)
      = claimDenseRanks (items.map Prod.snd) := by
  cases items with
  | nil => rfl
  | cons x rest =>
    have hrest : ∀ y ∈ rest, y.2 ≤ x.2 := (List.pairwise_cons.mp hpw).1
    have hpwrest := (List.pairwise_cons.mp hpw).2
    unfold assignRanks claimDenseRanks assignRanksAux claimDenseRanksAux
    simp only [List.map_cons]
    congr 1
    exact ranks_correspond rest 2 1 x.2 hrest hpwrest

/-- Rank assignment emits the totals unchanged, in order. -/
lemma assignRanksAux_totals :
    ∀ (items : List (Nat × ℚ)) (idx R : Nat) (ls : Option ℚ),
    (assignRanksAux idx R ls items).map (fun t => t.2.1) = items.map Prod.snd
  | [], _, _, _ => rfl
  | x :: rest, idx, R, ls => by
    unfold assignRanksAux
    simp only [List.map_cons]
    rw [assignRanksAux_totals rest _ _ _]

lemma mem_insertDesc {x y : Nat × ℚ} :
    ∀ {l : List (Nat × ℚ)}, y ∈ insertDesc x l ↔ y = x ∨ y ∈ l
  | [] => by simp [insertDesc]
  | z :: l => by
    unfold insertDesc
    by_cases h : x.2 > z.2
    · simp [h, List.mem_cons]
    · simp only [if_neg h, List.mem_cons, mem_insertDesc (l := l)]
      tauto

lemma insertDesc_sorted (x : Nat × ℚ) :
    ∀ (l : List (Nat × ℚ)),
    List.Pairwise (fun a b => b.2 ≤ a.2) l →
    List.Pairwise (fun a b => b.2 ≤ a.2) (insertDesc x l)
  | [], _ => by simp [insertDesc]
  | z :: l, h => by
    have hzl : ∀ y ∈ l, y.2 ≤ z.2 := (List.pairwise_cons.mp h).1
    have hl := (List.pairwise_cons.mp h).2
    unfold insertDesc
    by_cases hx : x.2 > z.2
    · rw [if_pos hx]
      rw [List.pairwise_cons]
      refine ⟨?_, h⟩
      intro y hy
      rcases List.mem_cons.mp hy with heq | hmem
      · rw [heq]
        exact le_of_lt hx
      · exact le_trans (hzl y hmem) (le_of_lt hx)
    · rw [if_neg hx]
      rw [List.pairwise_cons]
      refine ⟨?_, insertDesc_sorted x l hl⟩
      intro y hy
      rcases mem_insertDesc.mp hy with heq | hmem
      · rw [heq]
        exact le_of_not_lt hx
      · exact hzl y hmem

/-- The sort of `compute_cycle_rankings` produces a descending list. -/
lemma sortTotalsDesc_sorted (l : List (Nat × ℚ)) :
    List.Pairwise (fun a b => b.2 ≤ a.2) (sortTotalsDesc l) := by
  unfold sortTotalsDesc
  suffices h : ∀ (acc : List (Nat × ℚ)),
      List.Pairwise (fun a b => b.2 ≤ a.2) acc →
      List.Pairwise (fun a b => b.2 ≤ a.2)
        (l.foldl (fun acc x => insertDesc x acc) acc) by
    exact h [] (by simp)
  induction l with
  | nil => intro acc hacc; exact hacc
  | cons x rest ih =>
    intro acc hacc
    rw [List.foldl_cons]
    exact ih (insertDesc x acc) (insertDesc_sorted x acc hacc)

/-- The persisted ranking rows carry the ranked totals, in order. -/
lemma rankings_map_totalScore (base : Nat) (slook : St) (cid : Nat) (now : Int)
    (ranked : List (Nat × ℚ × Nat)) :
    ((ranked.enum.map (fun p =>
      ({ id := base + p.1, cycleId := cid,
         teamId := (findNomination slook p.2.1).bind Nomination.teamId,
         nomineeUserId :=
           ((findNomination slook p.2.1).map Nomination.nomineeUserId).getD 0,
         totalScore := p.2.2.1, rank := p.2.2.2,
         computedAt := now } : Ranking))).map Ranking.totalScore)
      = ranked.map (fun t => t.2.1) := by
  rw [List.map_map]
  have hcomp : (Ranking.totalScore ∘ (fun (p : Nat × Nat × ℚ × Nat) =>
      ({ id := base + p.1, cycleId := cid,
         teamId := (findNomination slook p.2.1).bind Nomination.teamId,
         nomineeUserId :=
           ((findNomination slook p.2.1).map Nomination.nomineeUserId).getD 0,
         totalScore := p.2.2.1, rank := p.2.2.2,
         computedAt := now } : Ranking)))
      = ((fun t : Nat × ℚ × Nat => t.2.1) ∘ Prod.snd) := rfl
  rw [hcomp, ← List.map_map, List.enum_map_snd]

/-- The ranking computation succeeds when every joined row has a numeric
legacy score; its totals dictionary satisfies the specification sums, the
persisted rows carry exactly the sorted totals, and no other table is
touched. -/
lemma computeCycleRankings_ok (s : St) (cid : Nat) (now : Int) (cyc : Cycle)
    (h1 : findCycle s cid = some cyc)
    (hs : ∀ t ∈ joinRows s cid, (t.2.1).score.isSome) :
    ∃ m' pr, accumulateTotals [] (joinRows s cid) = .ok m' ∧
      computeCycleRankings s cid now = .ok pr ∧
      (∀ p ∈ m', p.2 = nomTotal (joinRows s cid) p.1) ∧
      pr.2.map Ranking.totalScore = (sortTotalsDesc m').map Prod.snd ∧
      pr.1.nominations = s.nominations ∧ pr.1.cycles = s.cycles ∧
      pr.1.nomHistory = s.nomHistory ∧ pr.1.rankHistory = s.rankHistory := by
  obtain ⟨m', hacc, hnd, hchar⟩ :=
    accumulateTotals_go (joinRows s cid) [] hs (by simp)
  have hmem : ∀ p ∈ m', p.2 = nomTotal (joinRows s cid) p.1 := by
    intro p hp
    have hlk := lk_of_mem hnd hp
    have hc := (hchar p.1).symm.trans hlk
    by_cases hemp : ((joinRows s cid).filter (fun t => t.1.id == p.1)) = []
    · rw [if_pos hemp] at hc
      cases hc
    · rw [if_neg hemp] at hc
      have : (0 : ℚ) + nomTotal (joinRows s cid) p.1 = p.2 := by
        have := Option.some.inj hc
        simpa [lk] using this
      rw [← this, zero_add]
  have hcompute : ∃ pr, computeCycleRankings s cid now = .ok pr ∧
      pr.2.map Ranking.totalScore = (sortTotalsDesc m').map Prod.snd ∧
      pr.1.nominations = s.nominations ∧ pr.1.cycles = s.cycles ∧
      pr.1.nomHistory = s.nomHistory ∧ pr.1.rankHistory = s.rankHistory := by
    unfold computeCycleRankings
    rw [h1]
    simp only []
    rw [hacc]
    simp only []
    refine ⟨_, rfl, ?_, rfl, rfl, rfl, rfl⟩
    rw [rankings_map_totalScore]
    exact assignRanksAux_totals _ _ _ _
  obtain ⟨pr, hx1, hx2, hx3, hx4, hx5, hx6⟩ := hcompute
  exact ⟨m', pr, hacc, hx1, hmem, hx2, hx3, hx4, hx5, hx6⟩

/-- Replacing the status of the cycles with a given id commutes with the
primary-key lookup. -/
lemma find?_cycle_update (l : List Cycle) (cid : Nat) (st : CycleStatus) :
    (l.map (fun c => if c.id == cid then { c with status := st } else c)).find?
        (fun c => c.id == cid)
      = (l.find? (fun c => c.id == cid)).map
          (fun c => if c.id == cid then { c with status := st } else c) := by
  rw [List.find?_map]
  have hfun : ((fun c : Cycle => c.id == cid) ∘ (fun c =>
      if c.id == cid then { c with status := st } else c))
      = (fun c : Cycle => c.id == cid) := by
    funext c
    by_cases hc : (c.id == cid) = true <;> simp [Function.comp, hc]
  rw [hfun]

/-! Claim C1. -/

/-- C1 counterexample: an APPROVED nomination whose single score row has a
null legacy score (an answer-typed submission) makes
`compute_cycle_rankings` raise the `Decimal(None)` `TypeError` — the row
does not contribute 0 and the operation does not complete. -/
theorem null_score_total_crashes :
    computeCycleRankings stNullScore 10 50 = .error .nullScoreTypeError := by
  with_unfolding_all decide

/-- C1 (amended): when every joined score row of the cycle's approved
nominations carries a numeric legacy score, `compute_cycle_rankings`
succeeds, every accumulated entry equals the specification total
`Σ(score × weight)` over that nomination's rows, and the persisted rows
carry exactly the descending-sorted totals; a row whose legacy score is
null instead aborts the computation with a `TypeError`
(`Decimal(None)`) — it does not contribute 0. -/
theorem weighted_total_and_null_score (s : St) (cid : Nat) (now : Int)
    (cyc : Cycle) (h1 : findCycle s cid = some cyc) :
    ((∀ t ∈ joinRows s cid, (t.2.1).score.isSome) →
      ∃ m' pr, accumulateTotals [] (joinRows s cid) = .ok m' ∧
        computeCycleRankings s cid now = .ok pr ∧
        (∀ p ∈ m', p.2 = nomTotal (joinRows s cid) p.1) ∧
        pr.2.map Ranking.totalScore = (sortTotalsDesc m').map Prod.snd) ∧
    ((∃ t ∈ joinRows s cid, (t.2.1).score = none) →
      computeCycleRankings s cid now = .error .nullScoreTypeError) := by
  constructor
  · intro hs
    obtain ⟨m', pr, h2, h3, h4, h5, _, _, _, _⟩ :=
      computeCycleRankings_ok s cid now cyc h1 hs
    exact ⟨m', pr, h2, h3, h4, h5⟩
  · intro hex
    unfold computeCycleRankings
    rw [h1]
    simp only []
    rw [accumulateTotals_err (joinRows s cid) [] hex]

/-- C1 witness: the four-nomination state with numeric scores 90/90/80/70
on a weight-1 criterion computes successfully with specification totals. -/
theorem weighted_total_witness :
    ∃ m' pr, accumulateTotals [] (joinRows stFourTotals 10) = .ok m' ∧
      computeCycleRankings stFourTotals 10 50 = .ok pr ∧
      (∀ p ∈ m', p.2 = nomTotal (joinRows stFourTotals 10) p.1) ∧
      pr.2.map Ranking.totalScore = (sortTotalsDesc m').map Prod.snd :=
  (weighted_total_and_null_score stFourTotals 10 50 ⟨10, "Q1", 0, 100, .CLOSED, 1⟩
    (by with_unfolding_all decide)).1 (by with_unfolding_all decide)

/-! Claim C4. -/

/-- C4: `compute_cycle_rankings` sorts the totals descending
(`sortTotalsDesc` always yields a descending list), its rank loop on a
descending list is exactly the claim's dense-rank assignment (first item
rank 1, tied score repeats the previous rank, strictly lower score takes
its 1-based position), and concretely totals `[90, 90, 80, 70]` receive
ranks `[1, 1, 3, 4]`. -/
theorem dense_rank_rules :
    (∀ l : List (Nat × ℚ),
      List.Pairwise (fun a b => b.2 ≤ a.2) (sortTotalsDesc l)) ∧
    (∀ items : List (Nat × ℚ), List.Pairwise (fun a b => b.2 ≤ a.2) items →
      (assignRanks items).map (fun t => t.2.2)
        = claimDenseRanks (items.map Prod.snd)) ∧
    ((computeCycleRankings stFourTotals 10 50).map
      (fun p => p.2.map (fun r => (r.nomineeUserId, r.totalScore, r.rank))))
      = .ok [(31, 90, 1), (32, 90, 1), (33, 80, 3), (34, 70, 4)] :=
  ⟨sortTotalsDesc_sorted, assignRanks_eq_claimDenseRanks,
   by with_unfolding_all decide⟩

/-- C4 witness: the rank loop on the concrete descending totals 90/90/80/70
agrees with the claim's dense-rank function. -/
theorem dense_rank_rules_witness :
    List.Pairwise (fun (a b : Nat × ℚ) => b.2 ≤ a.2)
        [(1, (90 : ℚ)), (2, 90), (3, 80), (4, 70)] ∧
    (assignRanks [(1, (90 : ℚ)), (2, 90), (3, 80), (4, 70)]).map (fun t => t.2.2)
      = claimDenseRanks
          ([(1, (90 : ℚ)), (2, 90), (3, 80), (4, 70)].map Prod.snd) :=
  ⟨by with_unfolding_all decide,
   dense_rank_rules.2.1 [(1, (90 : ℚ)), (2, 90), (3, 80), (4, 70)]
     (by with_unfolding_all decide)⟩

/-! Claim C3. -/

/-- C3 counterexample: a CLOSED cycle whose approved nomination has a score
row with a null legacy score — `finalize_cycle` does not succeed: the
embedded ranking computation raises the `Decimal(None)` `TypeError`. -/
theorem finalize_crashes_on_null_score :
    finalizeCycle stClosedNullScore 10 50 = .error .nullScoreTypeError := by
  with_unfolding_all decide

/-- C3 (amended): `finalize_cycle` fails with the invalid-state error
unless the cycle is CLOSED; when it is CLOSED and every joined score row
has a numeric legacy score (otherwise the recomputation's type error
propagates), it succeeds exactly once: rankings are recomputed, one
`NominationHistory` row is appended per nomination of the cycle (any
status), one `RankingHistory` row per computed ranking, the cycle becomes
FINALIZED, and any second `finalize_cycle` call fails with the
invalid-state error. -/
theorem finalize_rules (s : St) (cid : Nat) (now : Int) (cyc : Cycle)
    (h1 : findCycle s cid = some cyc) :
    (cyc.status ≠ .CLOSED → finalizeCycle s cid now = .error .cycleNotClosed) ∧
    (cyc.status = .CLOSED →
      (∀ t ∈ joinRows s cid, (t.2.1).score.isSome) →
      ∃ s' pr, computeCycleRankings s cid now = .ok pr ∧
        finalizeCycle s cid now = .ok s' ∧
        s'.nomHistory = s.nomHistory ++
          ((s.nominations.filter (fun n => n.cycleId == cid)).map (fun n =>
            ({ sourceNominationId := n.id, cycleId := n.cycleId,
               nomineeUserId := n.nomineeUserId, teamId := n.teamId,
               submittedBy := n.submittedBy, submittedAt := n.submittedAt,
               status := n.status, payload := none } : NomHist))) ∧
        s'.rankHistory = s.rankHistory ++
          (pr.2.map (fun r =>
            ({ sourceRankingId := r.id, cycleId := r.cycleId, teamId := r.teamId,
               nomineeUserId := r.nomineeUserId, totalScore := r.totalScore,
               rank := r.rank, computedAt := r.computedAt } : RankHist))) ∧
        findCycle s' cid = some { cyc with status := .FINALIZED } ∧
        (∀ now2, finalizeCycle s' cid now2 = .error .cycleNotClosed)) := by
  constructor
  · intro hne
    unfold finalizeCycle
    rw [h1]
    simp only []
    rw [if_pos hne]
  · intro hclosed hs
    obtain ⟨m', pr, hacc, hcomp, hmem, htot, hnoms, hcycles, hnh, hrh⟩ :=
      computeCycleRankings_ok s cid now cyc h1 hs
    have hfind : s.cycles.find? (fun c => c.id == cid) = some cyc := h1
    have hid : cyc.id = cid := findCycle_id h1
    have hres : (s.cycles.map (fun c =>
        if c.id == cid then { c with status := CycleStatus.FINALIZED } else c)).find?
          (fun c => c.id == cid)
        = some { cyc with status := CycleStatus.FINALIZED } := by
      rw [find?_cycle_update, hfind]
      simp [hid]
    unfold finalizeCycle
    rw [h1]
    simp only []
    rw [if_neg (by simp [hclosed])]
    rw [hcomp]
    simp only []
    rw [hnoms, hnh, hrh, hcycles]
    refine ⟨_, pr, rfl, rfl, rfl, rfl, ?_, ?_⟩
    · exact hres
    · intro now2
      split
      · rename_i heq
        have h2 : (s.cycles.map (fun c =>
            if c.id == cid then { c with status := CycleStatus.FINALIZED } else c)).find?
              (fun c => c.id == cid) = none := heq
        rw [hres] at h2
        cases h2
      · rename_i cyc2 heq
        have h2 : (s.cycles.map (fun c =>
            if c.id == cid then { c with status := CycleStatus.FINALIZED } else c)).find?
              (fun c => c.id == cid) = some cyc2 := heq
        rw [hres] at h2
        have hcyc2 : cyc2 = { cyc with status := CycleStatus.FINALIZED } :=
          (Option.some.inj h2).symm
        subst hcyc2
        rw [if_pos (by simp)]

/-- C3 witness: finalizing the concrete CLOSED cycle with one approved and
one rejected nomination succeeds once — both nominations are snapshotted,
the single computed ranking is snapshotted, the cycle becomes FINALIZED,
and a second finalize fails. -/
theorem finalize_rules_witness :
    ∃ s' pr, computeCycleRankings stClosedOk 10 50 = .ok pr ∧
      finalizeCycle stClosedOk 10 50 = .ok s' ∧
      s'.nomHistory = stClosedOk.nomHistory ++
        ((stClosedOk.nominations.filter (fun n => n.cycleId == 10)).map (fun n =>
          ({ sourceNominationId := n.id, cycleId := n.cycleId,
             nomineeUserId := n.nomineeUserId, teamId := n.teamId,
             submittedBy := n.submittedBy, submittedAt := n.submittedAt,
             status := n.status, payload := none } : NomHist))) ∧
      s'.rankHistory = stClosedOk.rankHistory ++
        (pr.2.map (fun r =>
          ({ sourceRankingId := r.id, cycleId := r.cycleId, teamId := r.teamId,
             nomineeUserId := r.nomineeUserId, totalScore := r.totalScore,
             rank := r.rank, computedAt := r.computedAt } : RankHist))) ∧
      findCycle s' 10
        = some { (⟨10, "Q1", 0, 100, .CLOSED, 1⟩ : Cycle) with
                 status := .FINALIZED } ∧
      (∀ now2, finalizeCycle s' 10 now2 = .error .cycleNotClosed) :=
  (finalize_rules stClosedOk 10 50 ⟨10, "Q1", 0, 100, .CLOSED, 1⟩
    (by with_unfolding_all decide)).2 rfl (by with_unfolding_all decide)

end Awards
